import Mathlib

/-!
Verification of the qiniu go-sdk request engine and upload engine
against its natural-language specification.

Modelling conventions:
* Go strings are modelled as `List Char`; Go byte slices as `List Nat`
  with every entry below 256.
* Nullable Go values (`*bool`, `error`, body readers) are `Option`s.
* Machine integers: Go `int`/`int64` become `Int` where sign matters,
  `Nat` where the source guarantees non-negativity; `uint32` conversion
  is an explicit `% 2 ^ 32`.
-/

namespace QiniuSDK

/-- A Go error value as the SDK's retry classifier sees it
(`src/qiniu/service.go`): either a classified `qerr.Error` with a code,
a message and an optional cause (`qerr.New` keeps at most one), or an
unclassified error.  An unclassified error may implement
`Temporary() bool` (`temporary = some b`) or not (`none`), and may be a
connection-reset I/O error.  `isErrConnectionReset` is repository code
missing from `src/` (only its callers are present), so it is modelled
from the spec's words "the underlying I/O error is a connection-reset"
as the `connReset` flag. -/
inductive GoError where
  | qerror (code : List Char) (message : List Char) (orig : Option GoError)
  | plain (temporary : Option Bool) (connReset : Bool)

/-- The `retryableCodes` map of `src/qiniu/service.go` (lines 138-144). -/
def retryableCodes : List (List Char) :=
  ["Crc32VerificationError".toList, "RequestError".toList, "RequestTimeout".toList,
   "ResponseTimeout".toList, "RequestTimeoutException".toList]

/-- `isCodeRetryable` of `src/qiniu/service.go`. -/
def isCodeRetryable (code : List Char) : Bool :=
  retryableCodes.contains code

/-- The `validParentCodes` map of `src/qiniu/service.go`:
`SerializationError` and `ReadError`. -/
def validParentCodes : List (List Char) :=
  ["SerializationError".toList, "ReadError".toList]

/-- `isNestedErrorRetryable` of `src/qiniu/service.go` (lines 160-173):
the parent's code must be a valid parent code; then, if the cause is a
classified error only its code is consulted, if it implements
`Temporary` the check is `Temporary() || isErrConnectionReset`, and
otherwise only `isErrConnectionReset`. -/
def isNestedErrorRetryable (parentErr : GoError) : Bool :=
  match parentErr with
  | .qerror code _ orig =>
    if validParentCodes.contains code then
      match orig with
      | none => false
      | some (.qerror ccode _ _) => isCodeRetryable ccode
      | some (.plain (some t) cr) => t || cr
      | some (.plain none cr) => cr
    else false
  | .plain _ _ => false

/-- `IsErrorRetryable` of `src/qiniu/service.go` (lines 175-183): a nil
error and an error that is not a `qerr.Error` are never retryable. -/
def IsErrorRetryable : Option GoError → Bool
  | none => false
  | some e =>
    match e with
    | .qerror code _ _ => isCodeRetryable code || isNestedErrorRetryable e
    | .plain _ _ => false

/-- The four codes the claim (and spec §4.4) lists as the retryable set. -/
def claimRetryableCodes : List (List Char) :=
  ["Crc32VerificationError".toList, "RequestError".toList, "RequestTimeout".toList,
   "ResponseTimeout".toList]

/-- The code of a classified error, if the error is classified. -/
def errCodeIn (e : GoError) (codes : List (List Char)) : Bool :=
  match e with
  | .qerror c _ _ => codes.contains c
  | .plain _ _ => false

/-- The cause of an error (`OrigErr`), when one is recorded. -/
def causeOf : GoError → Option GoError
  | .qerror _ _ o => o
  | .plain _ _ => none

/-- Whether the recorded cause is a classified error whose code is in
the given set. -/
def causeCodeIn (e : GoError) (codes : List (List Char)) : Bool :=
  match causeOf e with
  | some (.qerror c _ _) => codes.contains c
  | _ => false

/-- Whether the recorded cause reports itself as temporary. -/
def causeTemporary (e : GoError) : Bool :=
  match causeOf e with
  | some (.plain (some t) _) => t
  | _ => false

/-- Whether the recorded cause is an unclassified connection-reset I/O
error. -/
def causeConnReset (e : GoError) : Bool :=
  match causeOf e with
  | some (.plain _ cr) => cr
  | _ => false

/-- Whether the recorded cause is present but not a classified error. -/
def causeNotClassified (e : GoError) : Bool :=
  match causeOf e with
  | some (.plain _ _) => true
  | _ => false

/-- Claim C4's retry condition, formalised from the spec's sentence:
code in the four-element retryable set, or a retryable classified cause
nested under a `SerializationError`/`ReadError` wrapper, or the cause
reports itself as temporary, or the underlying I/O error is a
connection reset. -/
def claimRetryable (e : GoError) : Bool :=
  errCodeIn e claimRetryableCodes
  || (errCodeIn e validParentCodes && causeCodeIn e claimRetryableCodes)
  || causeTemporary e
  || causeConnReset e

/-- The corrected retry condition: the retryable set also contains
`RequestTimeoutException`, and the temporary / connection-reset checks
apply only to a cause nested under a `SerializationError`/`ReadError`
wrapper and only when that cause is not itself a classified error. -/
def amendedRetryable (e : GoError) : Bool :=
  errCodeIn e retryableCodes
  || (errCodeIn e validParentCodes &&
      (causeCodeIn e retryableCodes
        || (causeNotClassified e && (causeTemporary e || causeConnReset e))))

/-- `ValidateResponseHandler` of `src/qiniu/corehandlers/handlers.go`
(lines 189-232), restricted to the error code it classifies: the
handler acts only when the status code is `0` or at least `300`; the
final `switch` maps `401` to `AuthorizationError`, `400` to
`ParamsError` and everything else to `UnknownError` (an earlier
`ConvertError`/`DecodeError` assignment is overwritten by the switch). -/
def validateResponseCode (statusCode : Nat) : Option (List Char) :=
  if statusCode = 0 ∨ 300 ≤ statusCode then
    some (if statusCode = 401 then "AuthorizationError".toList
      else if statusCode = 400 then "ParamsError".toList
      else "UnknownError".toList)
  else none

/-- The status-to-code table claimed by spec §4.4. -/
def specResponseCode (statusCode : Nat) : List Char :=
  match statusCode with
  | 298 => "PartError".toList
  | 400 => "ParamsError".toList
  | 401 => "AuthorizationError".toList
  | 403 => "AccessDeniedError".toList
  | 404 => "NotFoundError".toList
  | 405 => "UnexpectedRequestError".toList
  | 406 => "Crc32VerificationError".toList
  | 419 => "AccountFrozenError".toList
  | 478 => "MirrorSourceError".toList
  | 503 => "ServiceUnavailableError".toList
  | 504 => "ServiceTimeoutError".toList
  | 573 => "RequestRateError".toList
  | 579 => "UploadCallbackError".toList
  | 599 => "ServiceOperationError".toList
  | 608 => "ContentChangedError".toList
  | 612 => "ResourceNotExistError".toList
  | 614 => "ResourceExistError".toList
  | _ => "UnknownError".toList

/-- The code the handler actually assigns to a failing status, stated
in the amended claim's words: `ParamsError` for 400,
`AuthorizationError` for 401, `UnknownError` for every other failure. -/
def amendedResponseCode (statusCode : Nat) : List Char :=
  if statusCode = 400 then "ParamsError".toList
  else if statusCode = 401 then "AuthorizationError".toList
  else "UnknownError".toList

/-- `DefaultRetryer.ShouldRetry` of
`src/qiniu/client/default_client.go` (lines 38-57).  The `501` and
`429` cases of the Go `switch` have empty bodies; Go `switch` does not
fall through, so those two cases leave the switch and reach the final
`return r.IsErrorRetryable()`, exactly like a status that matches no
case.  Only `503` returns `false` and only `406` returns `true`. -/
def shouldRetry (retryable : Option Bool) (statusCode : Nat)
    (reqErr : Option GoError) : Bool :=
  match retryable with
  | some b => b
  | none =>
    match statusCode with
    | 501 => IsErrorRetryable reqErr
    | 429 => IsErrorRetryable reqErr
    | 503 => false
    | 406 => true
    | _ => IsErrorRetryable reqErr

/-- The result of `errUpload` (`src/unnamed/part_021`, lines 168-179):
either the inner error passed through unchanged, or a
`MultiUploadFailure` wrapper carrying the inner error, the HTTP status
code, the request id and the upload id. -/
inductive UploadError where
  | passthrough (e : GoError)
  | multiFailure (inner : GoError) (statusCode : Int) (reqID : List Char)
      (uploadID : List Char)

/-- `errUpload` of `src/unnamed/part_021`: a nil error stays nil; a
non-positive recorded status code returns the inner error unchanged; a
positive status code wraps the error (an unclassified error is first
wrapped in a `MultipartUploadError`). -/
def errUpload (err : Option GoError) (reqID : List Char) (statusCode : Int)
    (uploadID : List Char) : Option UploadError :=
  match err with
  | none => none
  | some e =>
    if statusCode ≤ 0 then some (.passthrough e)
    else
      match e with
      | .qerror _ _ _ => some (.multiFailure e statusCode reqID uploadID)
      | .plain _ _ =>
        some (.multiFailure
          (.qerror "MultipartUploadError".toList "Upload failure".toList (some e))
          statusCode reqID uploadID)

/-- Whether an `errUpload` result is a `MultiUploadFailure` wrapper. -/
def UploadError.isMultiFailure : UploadError → Bool
  | .multiFailure _ _ _ _ => true
  | .passthrough _ => false

/-- The HTTP request body handed to the transport: `http.NoBody` or the
offset reader `safeBody` over the request's rewindable body. -/
inductive HTTPBody where
  | noBody
  | stream (bytes : List Nat) (start : Nat)

/-- The fields of a `request.API` operation that `request.New` consults. -/
structure APIOp where
  method : List Char
  contentType : List Char

/-- The part of a `request.Request` that claim C10 is about: the HTTP
method, the `Content-Type` header, the rewindable body (`r.Body`, an
in-memory reader modelled as bytes plus read position), the recorded
start offset and the outgoing HTTP body (`HTTPRequest.Body`, where
`none` models a nil body). -/
structure RequestModel where
  httpMethod : List Char
  contentTypeHeader : List Char
  body : List Nat × Nat
  bodyStart : Nat
  httpBody : Option HTTPBody

/-- `qiniu.SeekerLen` for an in-memory reader (`src/unnamed/part_007`,
lines 94-123): the remaining unread bytes, i.e. length minus the
current position. -/
def seekerLen (body : List Nat × Nat) : Int :=
  (body.1.length : Int) - (body.2 : Int)

/-- `Request.getNextRequestBody` of `src/qiniu/request/request.go`
(lines 326-354): length 0 yields `http.NoBody`; a positive length
yields the offset reader; the unknown-length branch yields
`http.NoBody` for GET, HEAD and DELETE and the offset reader
otherwise. -/
def getNextRequestBody (method : List Char) (body : List Nat × Nat)
    (bodyStart : Nat) : HTTPBody :=
  let l : Int := seekerLen body
  if l = 0 then .noBody
  else if 0 < l then .stream body.1 bodyStart
  else if method = "GET".toList ∨ method = "HEAD".toList ∨ method = "DELETE".toList
    then .noBody
  else .stream body.1 bodyStart

/-- `request.New` of `src/qiniu/request/request.go` (lines 117-158): an
empty method defaults to POST, an empty content type to
`application/json`; `r.SetBufferBody([]byte{})` then runs
`SetReaderBody` (recording the reader's current offset as `BodyStart`)
and `ResetBody`, which installs the result of `getNextRequestBody` as
the outgoing HTTP body. -/
def requestNew (op : APIOp) : RequestModel :=
  let method := if op.method = [] then "POST".toList else op.method
  let contentType :=
    if op.contentType = [] then "application/json".toList else op.contentType
  let reader : List Nat × Nat := ([], 0)
  let bodyStart := reader.2
  { httpMethod := method
    contentTypeHeader := contentType
    body := reader
    bodyStart := bodyStart
    httpBody := some (getNextRequestBody method reader bodyStart) }

/-- The sidecar-relevant tail of `multipartUploader.upload`
(`src/unnamed/part_021`, lines 603-652) once every part task has been
joined.  If the parts phase recorded an error, `upload` returns before
`defer uploader.close(resumeFilePath(...))` is registered, so the
sidecar survives.  Otherwise that `defer` is registered and runs when
`upload` returns, after `uploader.complete(out)` has produced its
result — so `resumeRecorder.close` (an `os.Remove` of the sidecar,
lines 735-737) runs whether `complete` succeeded or failed. -/
structure UploadFinish where
  sidecarRemoved : Bool
  result : Option GoError

/-- The sidecar fate and returned error of `multipartUploader.upload`
as a function of the parts-phase error and the `complete` result. -/
def uploadFinish (partsErr : Option GoError) (completeResult : Option GoError) :
    UploadFinish :=
  match partsErr with
  | some e => { sidecarRemoved := false, result := some e }
  | none => { sidecarRemoved := true, result := completeResult }

/-- `DefaultUploadPartSize` of `src/unnamed/part_021`: 4 MiB. -/
def DefaultUploadPartSize : Nat := 4 * 1024 * 1024

/-- One manifest entry: `completedPart` of `src/unnamed/part_021`
(`Index` is the 1-based `partNumber`, `Etag` the server etag, `size`
the unserialized part length kept for the resume record). -/
structure CompletedPart where
  index : Nat
  etag : List Char
  size : Nat

/-- The per-upload fields of `multipartUploader` that the part loop
mutates under the uploader's mutex: the read position into the source,
the index of the last sliced part, and the manifest of completed
parts in completion order. -/
structure UploaderState where
  readPos : Nat
  lastIndex : Nat
  parts : List CompletedPart

/-- The buffer length `nextPart` chooses (`src/unnamed/part_021`, lines
654-680): the final short buffer `leftBytes` when
`0 < leftBytes < partSize` (with `partSize = DefaultUploadPartSize`,
set once in `newMultipartUploader`), otherwise a full pool buffer of
`DefaultUploadPartSize` bytes. -/
def partBufLen (leftBytes : Nat) : Nat :=
  if leftBytes < DefaultUploadPartSize then leftBytes else DefaultUploadPartSize

theorem partBufLen_pos {leftBytes : Nat} (h : 0 < leftBytes) :
    0 < partBufLen leftBytes := by
  unfold partBufLen DefaultUploadPartSize
  split <;> omega

/-- The part loop of `multipartUploader.upload` (`src/unnamed/part_021`,
lines 603-652) for a seekable source of `totalSize` bytes on the run in
which every part upload succeeds.  Each `nextPart` call slices the next
buffer (`io.ReadFull` fills it exactly, since the source length matches
`totalSize`), advances `readPos`, assigns index `lastIndex + 1`, and the
part's `uploadPart` appends `(index, etag)` to the manifest; the etag
returned by the server for part `i` is `etagOf i`.  When `readPos`
reaches `totalSize`, `io.ReadFull` reads zero bytes, `nextPart` returns
`io.EOF` and the loop ends. -/
def uploadParts (totalSize : Nat) (etagOf : Nat → List Char)
    (st : UploaderState) : UploaderState :=
  if _h : st.readPos < totalSize then
    uploadParts totalSize etagOf
      { readPos := st.readPos + partBufLen (totalSize - st.readPos)
        lastIndex := st.lastIndex + 1
        parts := st.parts ++
          [⟨st.lastIndex + 1, etagOf (st.lastIndex + 1),
            partBufLen (totalSize - st.readPos)⟩] }
  else st
termination_by totalSize - st.readPos
decreasing_by
  have := @partBufLen_pos (totalSize - st.readPos) (by omega)
  omega

/-- The sequence of part sizes produced for a source of `n` remaining
bytes, in slicing order. -/
def partSizes (n : Nat) : List Nat :=
  if n = 0 then []
  else if n < DefaultUploadPartSize then [n]
  else DefaultUploadPartSize :: partSizes (n - DefaultUploadPartSize)
decreasing_by
  unfold DefaultUploadPartSize
  omega

/-- The manifest comparison of `completedParts.Less`
(`src/unnamed/part_021`): order by `Index`. -/
def partLe (a b : CompletedPart) : Bool :=
  a.index ≤ b.index

/-- The `sort.Sort(uploader.Parts)` call of
`multipartUploader.completeRequest` (`src/unnamed/part_021`, lines
559-590): the manifest is sorted by `Index` ascending before being
serialized as the `parts` array of the Complete request body. -/
def sortParts (l : List CompletedPart) : List CompletedPart :=
  l.mergeSort partLe

/-- The fields of an `http.Request` that the v2 signer consults
(`src/qiniu/credentials/credentials.go`): method, URL path, raw query,
`Host`, the `Content-Type` header (empty when not set) and the body
(`none` models a nil body). -/
structure SignReq where
  method : List Char
  path : List Char
  rawQuery : List Char
  host : List Char
  contentType : List Char
  body : Option (List Char)

/-- `CONTENT_TYPE_FORM` of `src/qiniu/http/content_types.go`. -/
def CONTENT_TYPE_FORM : List Char := "application/x-www-form-urlencoded".toList

/-- `CONTENT_TYPE_JSON` of `src/qiniu/http/content_types.go`. -/
def CONTENT_TYPE_JSON : List Char := "application/json".toList

/-- `incBodyV2` of `src/qiniu/credentials/credentials.go` (lines
377-380): the body participates in the v2 signature iff it is non-nil
and the `Content-Type` is form-urlencoded or JSON. -/
def incBodyV2 (req : SignReq) : Bool :=
  req.body.isSome &&
    (req.contentType = CONTENT_TYPE_FORM || req.contentType = CONTENT_TYPE_JSON)

/-- `collectDataV2` of `src/qiniu/credentials/credentials.go` (lines
315-349), building the canonical string piece by piece exactly as the
source concatenates it. -/
def collectDataV2 (req : SignReq) : List Char :=
  let s1 := req.method ++ " ".toList ++ req.path
  let s2 := if req.rawQuery ≠ [] then s1 ++ "?".toList ++ req.rawQuery else s1
  let s3 := s2 ++ "\nHost: ".toList ++ req.host
  let s4 :=
    if req.contentType ≠ [] then s3 ++ "\n".toList ++ "Content-Type: ".toList ++ req.contentType
    else s3
  let s5 := s4 ++ "\n\n".toList
  if incBodyV2 req then s5 ++ req.body.getD [] else s5

/-- The claim's canonical-string formula, assembled the way the spec
describes it: method, space, path (then `?query` when the query is
non-empty), newline `Host: host`, optionally newline
`Content-Type: ct` when one is set, two newlines, then the body iff
the content type is form-urlencoded or JSON and a body is present. -/
def specCanonicalV2 (req : SignReq) : List Char :=
  req.method ++ " ".toList ++ req.path
    ++ (if req.rawQuery = [] then [] else "?".toList ++ req.rawQuery)
    ++ "\nHost: ".toList ++ req.host
    ++ (if req.contentType = [] then [] else "\nContent-Type: ".toList ++ req.contentType)
    ++ "\n\n".toList
    ++ (match req.body with
      | some b =>
        if req.contentType = CONTENT_TYPE_FORM ∨ req.contentType = CONTENT_TYPE_JSON
          then b else []
      | none => [])

/-! #### Upload token (claim C8)

The upload token is produced by `PutPolicy.UploadToken`
(`src/unnamed/part_019`) over `json.Marshal` of the policy and
`Value.SignWithData` (`src/qiniu/credentials/credentials.go`), and
decoded by `DecodeUpToken` (`src/service/kodo/utils.go`) via
`strings.SplitN`, `base64.URLEncoding.DecodeString` and a JSON decode.
Go byte strings are `List Nat` here; Go strings are `List Char` and are
UTF-8 encoded on the byte level exactly where the source converts
`string` to `[]byte`. -/

/-- UTF-8 encoding of one character, as Go produces when writing a
`string` as bytes. -/
def utf8EncodeChar (c : Char) : List Nat :=
  let n := c.toNat
  if n < 128 then [n]
  else if n < 2048 then [192 + n / 64, 128 + n % 64]
  else if n < 65536 then [224 + n / 4096, 128 + n / 64 % 64, 128 + n % 64]
  else [240 + n / 262144, 128 + n / 4096 % 64, 128 + n / 64 % 64, 128 + n % 64]

/-- One lowercase hexadecimal digit byte, as `encoding/json` emits. -/
def hexDigit (k : Nat) : Nat :=
  if k < 10 then 48 + k else 87 + k

/-- Four lowercase hex digit bytes of a code point below 2^16. -/
def hex4 (n : Nat) : List Nat :=
  [hexDigit (n / 4096 % 16), hexDigit (n / 256 % 16), hexDigit (n / 16 % 16),
    hexDigit (n % 16)]

/-- The value of a hexadecimal digit byte. -/
def hexVal (b : Nat) : Option Nat :=
  if 48 ≤ b ∧ b ≤ 57 then some (b - 48)
  else if 97 ≤ b ∧ b ≤ 102 then some (b - 87)
  else if 65 ≤ b ∧ b ≤ 70 then some (b - 55)
  else none

/-- `encoding/json` string escaping with its default HTML escaping, as
`json.Marshal` applies it: quote, backslash, `\n`, `\r`, `\t` escapes;
`\u00xx` for the remaining control characters and for `<`, `>`, `&`;
` `/` `; every other character is written as its UTF-8
bytes. -/
def jsonEscapeChar (c : Char) : List Nat :=
  let n := c.toNat
  if n = 34 then [92, 34]
  else if n = 92 then [92, 92]
  else if n = 10 then [92, 110]
  else if n = 13 then [92, 114]
  else if n = 9 then [92, 116]
  else if n < 32 ∨ n = 60 ∨ n = 62 ∨ n = 38 then 92 :: 117 :: hex4 n
  else if n = 8232 ∨ n = 8233 then 92 :: 117 :: hex4 n
  else utf8EncodeChar c

/-- A JSON string literal: quote, escaped characters, quote. -/
def jsonStringBytes (s : List Char) : List Nat :=
  34 :: (s.map jsonEscapeChar).flatten ++ [34]

/-- Decimal rendering of a natural number, as `encoding/json` renders
Go unsigned integers. -/
def natToBytes (n : Nat) : List Nat :=
  if n = 0 then [48] else (Nat.digits 10 n).reverse.map (· + 48)

/-- Decimal rendering of a signed integer. -/
def intToBytes (v : Int) : List Nat :=
  if v < 0 then 45 :: natToBytes v.natAbs else natToBytes v.toNat

/-- `PutPolicy` of `src/unnamed/part_019` with its JSON-relevant
fields in declaration order.  `deadline` is a `uint32` (a `Nat` here;
the `uint32` conversion in `WithDeadlineAfter` is an explicit
`% 2 ^ 32`), `isPrefixalScope`, `deleteAfterDays`, `fileType` are Go
`int`s, `fsizeLimit`/`fsizeMin` are `int64`s, and
`insertOnly`/`detectMime`/`callbackFetchKey` are unsigned. -/
structure PutPolicy where
  scope : List Char
  deadline : Nat
  isPrefixalScope : Int
  insertOnly : Nat
  forceSaveKey : Bool
  detectMime : Nat
  fsizeLimit : Int
  fsizeMin : Int
  mimeLimit : List Char
  saveKey : List Char
  callbackFetchKey : Nat
  callbackURL : List Char
  callbackHost : List Char
  callbackBody : List Char
  callbackBodyType : List Char
  returnURL : List Char
  returnBody : List Char
  persistentOps : List Char
  persistentNotifyURL : List Char
  persistentPipeline : List Char
  endUser : List Char
  deleteAfterDays : Int
  fileType : Int

/-- The zero `PutPolicy{}` value that `DecodeUpToken` decodes into. -/
def zeroPolicy : PutPolicy :=
  ⟨[], 0, 0, 0, false, 0, 0, 0, [], [], 0, [], [], [], [], [], [], [], [], [], [], 0, 0⟩

/-- One serialized field of the policy document: name tag plus value. -/
inductive PField where
  | scope (v : List Char)
  | deadline (v : Nat)
  | isPrefixalScope (v : Int)
  | insertOnly (v : Nat)
  | forceSaveKey (v : Bool)
  | detectMime (v : Nat)
  | fsizeLimit (v : Int)
  | fsizeMin (v : Int)
  | mimeLimit (v : List Char)
  | saveKey (v : List Char)
  | callbackFetchKey (v : Nat)
  | callbackURL (v : List Char)
  | callbackHost (v : List Char)
  | callbackBody (v : List Char)
  | callbackBodyType (v : List Char)
  | returnURL (v : List Char)
  | returnBody (v : List Char)
  | persistentOps (v : List Char)
  | persistentNotifyURL (v : List Char)
  | persistentPipeline (v : List Char)
  | endUser (v : List Char)
  | deleteAfterDays (v : Int)
  | fileType (v : Int)

/-- The JSON name of a field, from the struct tags of `PutPolicy`. -/
def fieldName : PField → List Char
  | .scope _ => "scope".toList
  | .deadline _ => "deadline".toList
  | .isPrefixalScope _ => "isPrefixalScope".toList
  | .insertOnly _ => "insertOnly".toList
  | .forceSaveKey _ => "forceSaveKey".toList
  | .detectMime _ => "detectMime".toList
  | .fsizeLimit _ => "fsizeLimit".toList
  | .fsizeMin _ => "fsizeMin".toList
  | .mimeLimit _ => "mimeLimit".toList
  | .saveKey _ => "saveKey".toList
  | .callbackFetchKey _ => "callbackFetchKey".toList
  | .callbackURL _ => "callbackUrl".toList
  | .callbackHost _ => "callbackHost".toList
  | .callbackBody _ => "callbackBody".toList
  | .callbackBodyType _ => "callbackBodyType".toList
  | .returnURL _ => "returnUrl".toList
  | .returnBody _ => "returnBody".toList
  | .persistentOps _ => "persistentOps".toList
  | .persistentNotifyURL _ => "persistentNotifyUrl".toList
  | .persistentPipeline _ => "persistentPipeline".toList
  | .endUser _ => "endUser".toList
  | .deleteAfterDays _ => "deleteAfterDays".toList
  | .fileType _ => "fileType".toList

/-- The serialized JSON value of a field. -/
def fieldValueBytes : PField → List Nat
  | .scope v => jsonStringBytes v
  | .deadline v => natToBytes v
  | .isPrefixalScope v => intToBytes v
  | .insertOnly v => natToBytes v
  | .forceSaveKey v => if v then "true".toList.map Char.toNat
      else "false".toList.map Char.toNat
  | .detectMime v => natToBytes v
  | .fsizeLimit v => intToBytes v
  | .fsizeMin v => intToBytes v
  | .mimeLimit v => jsonStringBytes v
  | .saveKey v => jsonStringBytes v
  | .callbackFetchKey v => natToBytes v
  | .callbackURL v => jsonStringBytes v
  | .callbackHost v => jsonStringBytes v
  | .callbackBody v => jsonStringBytes v
  | .callbackBodyType v => jsonStringBytes v
  | .returnURL v => jsonStringBytes v
  | .returnBody v => jsonStringBytes v
  | .persistentOps v => jsonStringBytes v
  | .persistentNotifyURL v => jsonStringBytes v
  | .persistentPipeline v => jsonStringBytes v
  | .endUser v => jsonStringBytes v
  | .deleteAfterDays v => intToBytes v
  | .fileType v => intToBytes v

/-- One serialized `"name":value` pair. -/
def renderField (f : PField) : List Nat :=
  jsonStringBytes (fieldName f) ++ 58 :: fieldValueBytes f

/-- The serialized fields after the first, each preceded by a comma. -/
def renderRest (fs : List PField) : List Nat :=
  (fs.map (fun f => 44 :: renderField f)).flatten

/-- The optional (`omitempty`) fields `json.Marshal` emits for a
policy, in struct order: each is present only when it is not its
type's zero value. -/
def optFields (p : PutPolicy) : List PField :=
  (if p.isPrefixalScope = 0 then [] else [.isPrefixalScope p.isPrefixalScope])
  ++ ((if p.insertOnly = 0 then [] else [.insertOnly p.insertOnly])
  ++ ((if p.forceSaveKey = false then [] else [.forceSaveKey p.forceSaveKey])
  ++ ((if p.detectMime = 0 then [] else [.detectMime p.detectMime])
  ++ ((if p.fsizeLimit = 0 then [] else [.fsizeLimit p.fsizeLimit])
  ++ ((if p.fsizeMin = 0 then [] else [.fsizeMin p.fsizeMin])
  ++ ((if p.mimeLimit = [] then [] else [.mimeLimit p.mimeLimit])
  ++ ((if p.saveKey = [] then [] else [.saveKey p.saveKey])
  ++ ((if p.callbackFetchKey = 0 then [] else [.callbackFetchKey p.callbackFetchKey])
  ++ ((if p.callbackURL = [] then [] else [.callbackURL p.callbackURL])
  ++ ((if p.callbackHost = [] then [] else [.callbackHost p.callbackHost])
  ++ ((if p.callbackBody = [] then [] else [.callbackBody p.callbackBody])
  ++ ((if p.callbackBodyType = [] then [] else [.callbackBodyType p.callbackBodyType])
  ++ ((if p.returnURL = [] then [] else [.returnURL p.returnURL])
  ++ ((if p.returnBody = [] then [] else [.returnBody p.returnBody])
  ++ ((if p.persistentOps = [] then [] else [.persistentOps p.persistentOps])
  ++ ((if p.persistentNotifyURL = [] then []
        else [.persistentNotifyURL p.persistentNotifyURL])
  ++ ((if p.persistentPipeline = [] then []
        else [.persistentPipeline p.persistentPipeline])
  ++ ((if p.endUser = [] then [] else [.endUser p.endUser])
  ++ ((if p.deleteAfterDays = 0 then [] else [.deleteAfterDays p.deleteAfterDays])
  ++ (if p.fileType = 0 then [] else [.fileType p.fileType]))))))))))))))))))))

/-- The fields `json.Marshal` emits for a policy, in struct order:
`scope` and `deadline` always (their tags have no `omitempty`),
followed by the present optional fields. -/
def presentFields (p : PutPolicy) : List PField :=
  .scope p.scope :: .deadline p.deadline :: optFields p

/-- `json.Marshal` of a `PutPolicy`: an object with the present fields
in struct order, separated by commas.  `scope` is always the first
field, so the object is never empty. -/
def marshalPutPolicy (p : PutPolicy) : List Nat :=
  match presentFields p with
  | [] => [123, 125]
  | f :: fs => 123 :: (renderField f ++ (renderRest fs ++ [125]))

/-- Single-character JSON escapes recognised by the decoder. -/
def escChar (e : Nat) : Option Nat :=
  if e = 34 then some 34
  else if e = 92 then some 92
  else if e = 47 then some 47
  else if e = 110 then some 10
  else if e = 114 then some 13
  else if e = 116 then some 9
  else if e = 98 then some 8
  else if e = 102 then some 12
  else none

/-- The value of a `\uXXXX` escape's four hex digits. -/
def hexVal4 (h1 h2 h3 h4 : Nat) : Option Nat :=
  (hexVal h1).bind fun a => (hexVal h2).bind fun b => (hexVal h3).bind fun c =>
    (hexVal h4).map fun d => a * 4096 + b * 256 + c * 16 + d

/-- Decode a `\uXXXX` escape body. -/
def uStep : List Nat → Option (Char × List Nat)
  | h1 :: h2 :: h3 :: h4 :: rest => (fun m => (Char.ofNat m, rest)) <$> hexVal4 h1 h2 h3 h4
  | _ => none

/-- Decode the byte after a backslash. -/
def escStep : List Nat → Option (Char × List Nat)
  | [] => none
  | e :: rest => if e = 117 then uStep rest else (fun n => (Char.ofNat n, rest)) <$> escChar e

/-- Decode the tail of a two-byte UTF-8 sequence. -/
def twoByteStep (b1 : Nat) : List Nat → Option (Char × List Nat)
  | b2 :: rest => some (Char.ofNat ((b1 - 192) * 64 + (b2 - 128)), rest)
  | [] => none

/-- Decode the tail of a three-byte UTF-8 sequence. -/
def threeByteStep (b1 : Nat) : List Nat → Option (Char × List Nat)
  | b2 :: b3 :: rest =>
    some (Char.ofNat ((b1 - 224) * 4096 + (b2 - 128) * 64 + (b3 - 128)), rest)
  | _ => none

/-- Decode the tail of a four-byte UTF-8 sequence. -/
def fourByteStep (b1 : Nat) : List Nat → Option (Char × List Nat)
  | b2 :: b3 :: b4 :: rest =>
    some (Char.ofNat
      ((b1 - 240) * 262144 + (b2 - 128) * 4096 + (b3 - 128) * 64 + (b4 - 128)), rest)
  | _ => none

/-- Decode one string character (the closing quote yields `none`), as
the `encoding/json` decoder reads it: single-character and `\uXXXX`
escapes and UTF-8 sequences.  The model decodes exactly what the
encoder emits and is lenient elsewhere (no overlong or continuation
checks, no surrogate pairing — the encoder never emits those). -/
def utf8Step : List Nat → Option (Char × List Nat)
  | [] => none
  | b1 :: rest =>
    if b1 = 34 then none
    else if b1 = 92 then escStep rest
    else if b1 < 128 then some (Char.ofNat b1, rest)
    else if b1 < 224 then twoByteStep b1 rest
    else if b1 < 240 then threeByteStep b1 rest
    else fourByteStep b1 rest

theorem uStep_shrinks {l : List Nat} {ch : Char} {r : List Nat}
    (h : uStep l = some (ch, r)) : r.length < l.length := by
  match l with
  | h1 :: h2 :: h3 :: h4 :: rest =>
    simp only [uStep] at h
    cases hv : hexVal4 h1 h2 h3 h4 <;> rw [hv] at h <;> simp at h
    obtain ⟨-, h2⟩ := h
    simp [← h2]
    omega
  | [] | [_] | [_, _] | [_, _, _] => simp [uStep] at h

theorem escStep_shrinks {l : List Nat} {ch : Char} {r : List Nat}
    (h : escStep l = some (ch, r)) : r.length < l.length := by
  match l with
  | [] => simp [escStep] at h
  | e :: rest =>
    simp only [escStep] at h
    by_cases he : e = 117
    · rw [if_pos he] at h
      have := uStep_shrinks h
      simp only [List.length_cons]
      omega
    · rw [if_neg he] at h
      cases hv : escChar e <;> rw [hv] at h <;> simp at h
      obtain ⟨-, h2⟩ := h
      simp [← h2]

theorem utf8Step_shrinks {l : List Nat} {ch : Char} {r : List Nat}
    (h : utf8Step l = some (ch, r)) : r.length < l.length := by
  match l with
  | [] => simp [utf8Step] at h
  | b1 :: rest =>
    simp only [utf8Step] at h
    by_cases h34 : b1 = 34
    · simp [h34] at h
    rw [if_neg h34] at h
    by_cases h92 : b1 = 92
    · rw [if_pos h92] at h
      have := escStep_shrinks h
      simp only [List.length_cons]
      omega
    rw [if_neg h92] at h
    by_cases ha : b1 < 128
    · rw [if_pos ha] at h
      simp at h
      obtain ⟨-, h2⟩ := h
      simp [← h2]
    rw [if_neg ha] at h
    by_cases h2b : b1 < 224
    · rw [if_pos h2b] at h
      match rest with
      | [] => simp [twoByteStep] at h
      | b2 :: rest2 =>
        simp only [twoByteStep, Option.some.injEq, Prod.mk.injEq] at h
        obtain ⟨-, h2⟩ := h
        simp [← h2]
        omega
    rw [if_neg h2b] at h
    by_cases h3b : b1 < 240
    · rw [if_pos h3b] at h
      match rest with
      | [] | [_] => simp [threeByteStep] at h
      | b2 :: b3 :: rest2 =>
        simp only [threeByteStep, Option.some.injEq, Prod.mk.injEq] at h
        obtain ⟨-, h2⟩ := h
        simp [← h2]
        omega
    rw [if_neg h3b] at h
    match rest with
    | [] | [_] | [_, _] => simp [fourByteStep] at h
    | b2 :: b3 :: b4 :: rest2 =>
      simp only [fourByteStep, Option.some.injEq, Prod.mk.injEq] at h
      obtain ⟨-, h2⟩ := h
      simp [← h2]
      omega

/-- The body of a JSON string literal after its opening quote: string
characters up to the closing quote. -/
def parseStringBody (l : List Nat) : Option (List Char × List Nat) :=
  match l with
  | [] => none
  | b1 :: rest =>
    if b1 = 34 then some ([], rest)
    else
      match h : utf8Step (b1 :: rest) with
      | some (ch, rest2) => (fun pr => (ch :: pr.1, pr.2)) <$> parseStringBody rest2
      | none => none
termination_by l.length
decreasing_by
  exact utf8Step_shrinks h

/-- A JSON string literal including its opening quote. -/
def parseJsonString (l : List Nat) : Option (List Char × List Nat) :=
  match l with
  | b :: rest => if b = 34 then parseStringBody rest else none
  | [] => none

/-- Consume decimal digit bytes, most significant first. -/
def parseDigits : List Nat → Nat → Nat × List Nat
  | [], acc => (acc, [])
  | b :: rest, acc =>
    if 48 ≤ b ∧ b ≤ 57 then parseDigits rest (acc * 10 + (b - 48)) else (acc, b :: rest)

/-- A JSON non-negative integer (at least one digit). -/
def parseNat (l : List Nat) : Option (Nat × List Nat) :=
  match l with
  | b :: rest => if 48 ≤ b ∧ b ≤ 57 then some (parseDigits rest (b - 48)) else none
  | [] => none

/-- A JSON integer with an optional leading minus sign. -/
def parseInt (l : List Nat) : Option (Int × List Nat) :=
  match l with
  | b :: rest =>
    if b = 45 then (fun pr => (-(pr.1 : Int), pr.2)) <$> parseNat rest
    else (fun pr => ((pr.1 : Int), pr.2)) <$> parseNat (b :: rest)
  | [] => none

/-- A JSON boolean literal (`true` / `false` bytes). -/
def parseBool (l : List Nat) : Option (Bool × List Nat) :=
  match l with
  | b1 :: b2 :: b3 :: b4 :: rest =>
    if b1 = 116 ∧ b2 = 114 ∧ b3 = 117 ∧ b4 = 101 then some (true, rest)
    else
      match rest with
      | b5 :: rest2 =>
        if b1 = 102 ∧ b2 = 97 ∧ b3 = 108 ∧ b4 = 115 ∧ b5 = 101 then
          some (false, rest2)
        else none
      | [] => none
  | _ => none

/-- Assign one decoded field into the policy, as the reflective decode
writes into the struct. -/
def setField (p : PutPolicy) : PField → PutPolicy
  | .scope v => { p with scope := v }
  | .deadline v => { p with deadline := v }
  | .isPrefixalScope v => { p with isPrefixalScope := v }
  | .insertOnly v => { p with insertOnly := v }
  | .forceSaveKey v => { p with forceSaveKey := v }
  | .detectMime v => { p with detectMime := v }
  | .fsizeLimit v => { p with fsizeLimit := v }
  | .fsizeMin v => { p with fsizeMin := v }
  | .mimeLimit v => { p with mimeLimit := v }
  | .saveKey v => { p with saveKey := v }
  | .callbackFetchKey v => { p with callbackFetchKey := v }
  | .callbackURL v => { p with callbackURL := v }
  | .callbackHost v => { p with callbackHost := v }
  | .callbackBody v => { p with callbackBody := v }
  | .callbackBodyType v => { p with callbackBodyType := v }
  | .returnURL v => { p with returnURL := v }
  | .returnBody v => { p with returnBody := v }
  | .persistentOps v => { p with persistentOps := v }
  | .persistentNotifyURL v => { p with persistentNotifyURL := v }
  | .persistentPipeline v => { p with persistentPipeline := v }
  | .endUser v => { p with endUser := v }
  | .deleteAfterDays v => { p with deleteAfterDays := v }
  | .fileType v => { p with fileType := v }

/-- Decode one field value according to the field's declared type in
`PutPolicy`, keyed by the JSON field name. -/
def parseFieldValue (name : List Char) (l : List Nat) : Option (PField × List Nat) :=
  if name = "scope".toList then
    (fun pr => (.scope pr.1, pr.2)) <$> parseJsonString l
  else if name = "deadline".toList then
    (fun pr => (.deadline pr.1, pr.2)) <$> parseNat l
  else if name = "isPrefixalScope".toList then
    (fun pr => (.isPrefixalScope pr.1, pr.2)) <$> parseInt l
  else if name = "insertOnly".toList then
    (fun pr => (.insertOnly pr.1, pr.2)) <$> parseNat l
  else if name = "forceSaveKey".toList then
    (fun pr => (.forceSaveKey pr.1, pr.2)) <$> parseBool l
  else if name = "detectMime".toList then
    (fun pr => (.detectMime pr.1, pr.2)) <$> parseNat l
  else if name = "fsizeLimit".toList then
    (fun pr => (.fsizeLimit pr.1, pr.2)) <$> parseInt l
  else if name = "fsizeMin".toList then
    (fun pr => (.fsizeMin pr.1, pr.2)) <$> parseInt l
  else if name = "mimeLimit".toList then
    (fun pr => (.mimeLimit pr.1, pr.2)) <$> parseJsonString l
  else if name = "saveKey".toList then
    (fun pr => (.saveKey pr.1, pr.2)) <$> parseJsonString l
  else if name = "callbackFetchKey".toList then
    (fun pr => (.callbackFetchKey pr.1, pr.2)) <$> parseNat l
  else if name = "callbackUrl".toList then
    (fun pr => (.callbackURL pr.1, pr.2)) <$> parseJsonString l
  else if name = "callbackHost".toList then
    (fun pr => (.callbackHost pr.1, pr.2)) <$> parseJsonString l
  else if name = "callbackBody".toList then
    (fun pr => (.callbackBody pr.1, pr.2)) <$> parseJsonString l
  else if name = "callbackBodyType".toList then
    (fun pr => (.callbackBodyType pr.1, pr.2)) <$> parseJsonString l
  else if name = "returnUrl".toList then
    (fun pr => (.returnURL pr.1, pr.2)) <$> parseJsonString l
  else if name = "returnBody".toList then
    (fun pr => (.returnBody pr.1, pr.2)) <$> parseJsonString l
  else if name = "persistentOps".toList then
    (fun pr => (.persistentOps pr.1, pr.2)) <$> parseJsonString l
  else if name = "persistentNotifyUrl".toList then
    (fun pr => (.persistentNotifyURL pr.1, pr.2)) <$> parseJsonString l
  else if name = "persistentPipeline".toList then
    (fun pr => (.persistentPipeline pr.1, pr.2)) <$> parseJsonString l
  else if name = "endUser".toList then
    (fun pr => (.endUser pr.1, pr.2)) <$> parseJsonString l
  else if name = "deleteAfterDays".toList then
    (fun pr => (.deleteAfterDays pr.1, pr.2)) <$> parseInt l
  else if name = "fileType".toList then
    (fun pr => (.fileType pr.1, pr.2)) <$> parseInt l
  else none

/-- Decode one `"name":value` pair and assign it into the policy. -/
def parseFieldAndAssign (l : List Nat) (p : PutPolicy) :
    Option (PutPolicy × List Nat) :=
  match parseJsonString l with
  | some (name, rest1) =>
    match rest1 with
    | b :: rest2 =>
      if b = 58 then
        match parseFieldValue name rest2 with
        | some (f, rest3) => some (setField p f, rest3)
        | none => none
      else none
    | [] => none
  | none => none

/-- Decode the remaining fields of the object: a closing brace ends
the object, a comma is followed by another field. -/
def parseFieldsLoop : Nat → PutPolicy → List Nat → Option (PutPolicy × List Nat)
  | 0, _, _ => none
  | fuel + 1, p, l =>
    match l with
    | [] => none
    | b :: rest =>
      if b = 125 then some (p, rest)
      else if b = 44 then
        match parseFieldAndAssign rest p with
        | some (p2, rest2) => parseFieldsLoop fuel p2 rest2
        | none => none
      else none

/-- `json.Unmarshal` of a policy document into a zero `PutPolicy{}`,
modelled for the documents `marshalPutPolicy` produces: an object whose
fields are decoded in sequence into the struct. -/
def unmarshalPutPolicy (l : List Nat) : Option PutPolicy :=
  match l with
  | b :: rest =>
    if b = 123 then
      match rest with
      | b2 :: _ =>
        if b2 = 125 then some zeroPolicy
        else
          match parseFieldAndAssign rest zeroPolicy with
          | some (p, rest2) =>
            match parseFieldsLoop (rest2.length + 1) p rest2 with
            | some (p2, _) => some p2
            | none => none
          | none => none
      | [] => none
    else none
  | [] => none

/-- The URL-safe base64 alphabet of `base64.URLEncoding`. -/
def b64Char (k : Nat) : Char :=
  if k < 26 then Char.ofNat (65 + k)
  else if k < 52 then Char.ofNat (97 + (k - 26))
  else if k < 62 then Char.ofNat (48 + (k - 52))
  else if k = 62 then '-'
  else '_'

/-- `base64.URLEncoding.EncodeToString`: 3 bytes to 4 characters, with
`=` padding for a 1- or 2-byte tail. -/
def encodeB64 : List Nat → List Char
  | [] => []
  | [a] => [b64Char (a / 4), b64Char (a % 4 * 16), '=', '=']
  | [a, b] => [b64Char (a / 4), b64Char (a % 4 * 16 + b / 16), b64Char (b % 16 * 4), '=']
  | a :: b :: c :: rest =>
    b64Char (a / 4) :: b64Char (a % 4 * 16 + b / 16) ::
      b64Char (b % 16 * 4 + c / 64) :: b64Char (c % 64) :: encodeB64 rest

/-- The value of a URL-safe base64 alphabet character. -/
def b64Val (ch : Char) : Option Nat :=
  let n := ch.toNat
  if 65 ≤ n ∧ n ≤ 90 then some (n - 65)
  else if 97 ≤ n ∧ n ≤ 122 then some (26 + (n - 97))
  else if 48 ≤ n ∧ n ≤ 57 then some (52 + (n - 48))
  else if n = 45 then some 62
  else if n = 95 then some 63
  else none

/-- `base64.URLEncoding.DecodeString`: groups of four characters, the
last group optionally padded. -/
def decodeB64 : List Char → Option (List Nat)
  | [] => some []
  | c1 :: c2 :: c3 :: c4 :: rest =>
    (b64Val c1).bind fun a =>
    (b64Val c2).bind fun b =>
    if c3 = '=' then
      if c4 = '=' ∧ rest = [] then some [a * 4 + b / 16] else none
    else
      (b64Val c3).bind fun c =>
      if c4 = '=' then
        if rest = [] then some [a * 4 + b / 16, b % 16 * 16 + c / 4] else none
      else
        (b64Val c4).bind fun d =>
        (decodeB64 rest).map fun tl =>
          (a * 4 + b / 16) :: (b % 16 * 16 + c / 4) :: (c % 4 * 64 + d) :: tl
  | _ => none

/-- Split a string at its first colon, when one exists. -/
def breakColon : List Char → Option (List Char × List Char)
  | [] => none
  | c :: rest =>
    if c = ':' then some ([], rest)
    else (fun pr => (c :: pr.1, pr.2)) <$> breakColon rest

/-- `strings.SplitN(s, ":", 3)`: at most three pieces; the third keeps
any further colons. -/
def splitN3 (s : List Char) : List (List Char) :=
  match breakColon s with
  | none => [s]
  | some (a, r1) =>
    match breakColon r1 with
    | none => [a, r1]
    | some (b, r2) => [a, b, r2]

/-- Rotate a 32-bit word left by `k` bits. -/
def rotl32 (k x : Nat) : Nat :=
  x % 2 ^ (32 - k) * 2 ^ k + x / 2 ^ (32 - k)

/-- Big-endian 8-byte rendering of the SHA-1 bit length. -/
def be64 (n : Nat) : List Nat :=
  [n / 2 ^ 56 % 256, n / 2 ^ 48 % 256, n / 2 ^ 40 % 256, n / 2 ^ 32 % 256,
    n / 2 ^ 24 % 256, n / 2 ^ 16 % 256, n / 2 ^ 8 % 256, n % 256]

/-- SHA-1 message padding: `0x80`, zeros to 56 mod 64, 64-bit length.
The zero count is `(55 - len) mod 64` over the integers, written
without truncating subtraction: `119 - len % 64` is at least 56. -/
def sha1Pad (msg : List Nat) : List Nat :=
  let len := msg.length
  msg ++ 128 :: List.replicate ((119 - len % 64) % 64) 0 ++ be64 (len * 8)

/-- Big-endian 32-bit words of a byte list. -/
def toWords : List Nat → List Nat
  | a :: b :: c :: d :: rest => (a * 16777216 + b * 65536 + c * 256 + d) :: toWords rest
  | _ => []

/-- Split a byte list into 64-byte blocks. -/
def chunk64 : List Nat → List (List Nat)
  | [] => []
  | x :: rest => ((x :: rest).take 64) :: chunk64 ((x :: rest).drop 64)
termination_by l => l.length
decreasing_by
  simp only [List.length_drop, List.length_cons]
  omega

/-- Extend the 16 message words of a block to the 80 schedule words. -/
def extendTo80 (ws : List Nat) : List Nat :=
  if _h : 80 ≤ ws.length then ws
  else
    extendTo80 (ws ++
      [rotl32 1 ((ws.getD (ws.length - 3) 0) ^^^ (ws.getD (ws.length - 8) 0) ^^^
        (ws.getD (ws.length - 14) 0) ^^^ (ws.getD (ws.length - 16) 0))])
termination_by 80 - ws.length
decreasing_by
  simp only [List.length_append, List.length_cons, List.length_nil]
  omega

/-- One SHA-1 round. -/
def sha1Round (w : List Nat) (st : Nat × Nat × Nat × Nat × Nat) (i : Nat) :
    Nat × Nat × Nat × Nat × Nat :=
  let (a, b, c, d, e) := st
  let fval :=
    if i < 20 then b &&& c ||| ((4294967295 - b) &&& d)
    else if i < 40 then b ^^^ c ^^^ d
    else if i < 60 then b &&& c ||| b &&& d ||| c &&& d
    else b ^^^ c ^^^ d
  let kval :=
    if i < 20 then 1518500249
    else if i < 40 then 1859775393
    else if i < 60 then 2400959708
    else 3395469782
  let temp := (rotl32 5 a + fval + e + kval + w.getD i 0) % 2 ^ 32
  (temp, a, rotl32 30 b, c, d)

/-- SHA-1 compression of one 64-byte block. -/
def sha1Block (h : Nat × Nat × Nat × Nat × Nat) (block : List Nat) :
    Nat × Nat × Nat × Nat × Nat :=
  let w := extendTo80 (toWords block)
  let (a, b, c, d, e) := (List.range 80).foldl (sha1Round w) h
  let (h0, h1, h2, h3, h4) := h
  ((h0 + a) % 2 ^ 32, (h1 + b) % 2 ^ 32, (h2 + c) % 2 ^ 32, (h3 + d) % 2 ^ 32,
    (h4 + e) % 2 ^ 32)

/-- Big-endian bytes of a 32-bit word. -/
def be32 (n : Nat) : List Nat :=
  [n / 16777216 % 256, n / 65536 % 256, n / 256 % 256, n % 256]

/-- SHA-1 of a byte list (crypto/sha1). -/
def sha1 (msg : List Nat) : List Nat :=
  let (h0, h1, h2, h3, h4) :=
    (chunk64 (sha1Pad msg)).foldl sha1Block
      (1732584193, 4023233417, 2562383102, 271733878, 3285377520)
  be32 h0 ++ be32 h1 ++ be32 h2 ++ be32 h3 ++ be32 h4

/-- HMAC-SHA1 (crypto/hmac over crypto/sha1). -/
def hmacSha1 (key msg : List Nat) : List Nat :=
  let k0 := if 64 < key.length then sha1 key else key
  let k := k0 ++ List.replicate (64 - k0.length) 0
  sha1 ((k.map (fun b => b ^^^ 92)) ++ sha1 ((k.map (fun b => b ^^^ 54)) ++ msg))

/-- A credentials value: access key (a string) and secret key (bytes),
as `credentials.Value` holds them. -/
structure CredValue where
  accessKey : List Char
  secretKey : List Nat

/-- `Value.Sign` of `src/qiniu/credentials/credentials.go`:
`accessKey ':' base64url(HMAC_SHA1(secretKey, data))`. -/
def signData (v : CredValue) (data : List Nat) : List Char :=
  v.accessKey ++ ':' :: encodeB64 (hmacSha1 v.secretKey data)

/-- `Value.SignWithData` (`src/qiniu/credentials/credentials.go`, lines
286-291): sign the base64 of the data and append the base64 of the
data. -/
def signWithData (v : CredValue) (b : List Nat) : List Char :=
  let encodedData := encodeB64 b
  signData v (encodedData.map Char.toNat) ++ ':' :: encodedData

/-- The deadline defaulting of `PutPolicy.UploadToken`
(`src/unnamed/part_019`, lines 348-361): a `uint32` deadline that is
`<= 0` (that is, zero) becomes `uint32(now.Add(1h).Unix())`. -/
def defaultDeadline (now : Nat) (p : PutPolicy) : PutPolicy :=
  if p.deadline = 0 then { p with deadline := (now + 3600) % 2 ^ 32 } else p

/-- `PutPolicy.UploadToken`: default the deadline, marshal the policy
to JSON, and sign with `SignWithData`. -/
def uploadToken (now : Nat) (v : CredValue) (p : PutPolicy) : List Char :=
  signWithData v (marshalPutPolicy (defaultDeadline now p))

/-- `DecodeUpToken` of `src/service/kodo/utils.go` (lines 13-32):
split on at most two colons, take the first piece as the access key,
base64url-decode the third piece and JSON-decode it into a
`PutPolicy{}`. -/
def decodeUpToken (tok : List Char) : Option (List Char × PutPolicy) :=
  match splitN3 tok with
  | [ak, _sig, b64policy] =>
    match decodeB64 b64policy with
    | some bs =>
      match unmarshalPutPolicy bs with
      | some p => some (ak, p)
      | none => none
    | none => none
  | _ => none

/-! ### Theorems -/

/-- C1 counterexample: at the failing status 404 the handler classifies
the error as `UnknownError`, not the `NotFoundError` required by the
claimed §4.4 mapping, so the claimed mapping is false at 404. -/
theorem validateResponseCode_claim_counterexample :
    validateResponseCode 404 = some ("UnknownError".toList) ∧
    specResponseCode 404 = "NotFoundError".toList ∧
    validateResponseCode 404 ≠ some (specResponseCode 404) := by
  refine ⟨by decide, by decide, by decide⟩

/-- C1 (amended): for every response whose status code is 0 or at least
300, the `ValidateResponse` stage sets a classified error whose code is
`ParamsError` for status 400, `AuthorizationError` for status 401, and
`UnknownError` for every other failing status. -/
theorem validateResponseCode_amended (s : Nat) (h : s = 0 ∨ 300 ≤ s) :
    validateResponseCode s = some (amendedResponseCode s) := by
  by_cases h1 : s = 401 <;> by_cases h2 : s = 400 <;>
    simp_all [validateResponseCode, amendedResponseCode]

/-- C1 witness: the amended mapping evaluated at the failing status 404. -/
theorem validateResponseCode_amended_witness :
    ((404 : Nat) = 0 ∨ 300 ≤ (404 : Nat)) ∧
    validateResponseCode 404 = some (amendedResponseCode 404) :=
  ⟨by decide, validateResponseCode_amended 404 (by decide)⟩

/-- C2: evaluation of the upload tail at the claim's failing input.
When the parts phase succeeded and the `complete` call returns an
error, the deferred `close` still removes the resume sidecar
(`sidecarRemoved = true`), contradicting the claim that a failed
Complete leaves the sidecar in place; on a successful Complete the
sidecar is removed as claimed, and a parts-phase error does preserve
it. -/
theorem uploadFinish_complete_error_removes_sidecar :
    (uploadFinish none
        (some (.qerror "UnknownError".toList "Service Unavailable".toList none))).sidecarRemoved
      = true ∧
    (uploadFinish none none).sidecarRemoved = true ∧
    (uploadFinish
        (some (.qerror "RequestError".toList "send request failed".toList none))
        none).sidecarRemoved = false :=
  ⟨rfl, rfl, rfl⟩

/-- C3: evaluation of `DefaultRetryer.ShouldRetry` at the claim's
failing inputs.  With the retryable flag unset, status 501 and status
429 do not return `false`: they fall through to `IsErrorRetryable`,
which returns `true` for a pending `RequestError`; status 503 does
return `false` and status 406 returns `true` as claimed. -/
theorem shouldRetry_501_429_fall_through :
    shouldRetry none 501
      (some (.qerror "RequestError".toList "send request failed".toList none)) = true ∧
    shouldRetry none 429
      (some (.qerror "RequestError".toList "send request failed".toList none)) = true ∧
    shouldRetry none 503
      (some (.qerror "RequestError".toList "send request failed".toList none)) = false ∧
    shouldRetry none 406 none = true :=
  ⟨rfl, rfl, rfl, rfl⟩

/-- C4 counterexample: a classified error with code
`RequestTimeoutException` and no cause is retryable for
`IsErrorRetryable` but satisfies none of the claim's conditions, so the
claimed "if and only if" fails at this error value. -/
theorem isErrorRetryable_claim_counterexample :
    IsErrorRetryable
      (some (.qerror "RequestTimeoutException".toList "read timeout".toList none)) = true ∧
    claimRetryable
      (.qerror "RequestTimeoutException".toList "read timeout".toList none) = false :=
  ⟨by decide, by decide⟩

/-- C4 (amended): `IsErrorRetryable` permits a retry exactly when the
error's code is one of `Crc32VerificationError`, `RequestError`,
`RequestTimeout`, `ResponseTimeout`, `RequestTimeoutException`, or the
error's code is `SerializationError` or `ReadError` and its recorded
cause either is a classified error with a code in that same set, or is
an unclassified cause that reports itself as temporary or is a
connection-reset I/O error. -/
theorem isErrorRetryable_amended (e : GoError) :
    IsErrorRetryable (some e) = amendedRetryable e := by
  cases e with
  | plain t cr =>
    simp [IsErrorRetryable, amendedRetryable, errCodeIn, causeCodeIn,
      causeTemporary, causeConnReset, causeNotClassified, causeOf]
  | qerror c m o =>
    by_cases hw : validParentCodes.contains c
    · cases o with
      | none =>
        simp [IsErrorRetryable, amendedRetryable, isNestedErrorRetryable, hw,
          errCodeIn, causeCodeIn, causeTemporary, causeConnReset,
          causeNotClassified, causeOf, isCodeRetryable, List.contains]
      | some cause =>
        cases cause with
        | qerror c2 m2 o2 =>
          simp [IsErrorRetryable, amendedRetryable, isNestedErrorRetryable, hw,
            errCodeIn, causeCodeIn, causeTemporary, causeConnReset,
            causeNotClassified, causeOf, isCodeRetryable, List.contains]
        | plain t2 cr2 =>
          cases t2 <;>
            simp [IsErrorRetryable, amendedRetryable, isNestedErrorRetryable, hw,
              errCodeIn, causeCodeIn, causeTemporary, causeConnReset,
              causeNotClassified, causeOf, isCodeRetryable, List.contains]
    · cases o with
      | none =>
        simp [IsErrorRetryable, amendedRetryable, isNestedErrorRetryable, hw,
          errCodeIn, causeCodeIn, causeTemporary, causeConnReset,
          causeNotClassified, causeOf, isCodeRetryable, List.contains]
      | some cause =>
        cases cause with
        | qerror c2 m2 o2 =>
          simp [IsErrorRetryable, amendedRetryable, isNestedErrorRetryable, hw,
            errCodeIn, causeCodeIn, causeTemporary, causeConnReset,
            causeNotClassified, causeOf, isCodeRetryable, List.contains]
        | plain t2 cr2 =>
          cases t2 <;>
            simp [IsErrorRetryable, amendedRetryable, isNestedErrorRetryable, hw,
              errCodeIn, causeCodeIn, causeTemporary, causeConnReset,
              causeNotClassified, causeOf, isCodeRetryable, List.contains]

/-- C9: `errUpload` passes a nil error through as nil; a non-nil error
is returned unchanged (carrying no upload id) exactly when the recorded
status code is zero or negative, and is wrapped into a
`MultiUploadFailure` carrying the status code, request id and upload id
exactly when the status code is strictly positive. -/
theorem errUpload_wraps_iff_positive_status (e : GoError)
    (reqID uploadID : List Char) (statusCode : Int) :
    errUpload none reqID statusCode uploadID = none ∧
    (errUpload (some e) reqID statusCode uploadID = some (.passthrough e) ↔
      statusCode ≤ 0) ∧
    ((∃ inner, errUpload (some e) reqID statusCode uploadID =
        some (.multiFailure inner statusCode reqID uploadID)) ↔ 0 < statusCode) := by
  refine ⟨rfl, ?_, ?_⟩
  · by_cases hs : statusCode ≤ 0
    · simp [errUpload, hs]
    · cases e <;> simp [errUpload, hs]
  · by_cases hs : statusCode ≤ 0
    · constructor
      · rintro ⟨inner, hEq⟩
        simp [errUpload, hs] at hEq
      · intro h; omega
    · cases e with
      | qerror c m o =>
        constructor
        · intro _; omega
        · intro _
          exact ⟨.qerror c m o, by simp [errUpload, hs]⟩
      | plain t cr =>
        constructor
        · intro _; omega
        · intro _
          exact ⟨.qerror "MultipartUploadError".toList "Upload failure".toList
            (some (.plain t cr)), by simp [errUpload, hs]⟩

/-- C10: `request.New` defaults an empty operation method to POST and
an empty content type to `application/json`, and initializes the body
to an empty buffer so the outgoing HTTP body is `http.NoBody` and in
particular never nil. -/
theorem requestNew_defaults (op : APIOp) :
    (op.method = [] → (requestNew op).httpMethod = "POST".toList) ∧
    (op.contentType = [] →
      (requestNew op).contentTypeHeader = "application/json".toList) ∧
    (requestNew op).httpBody = some .noBody := by
  refine ⟨fun h => by simp [requestNew, h], fun h => by simp [requestNew, h], ?_⟩
  by_cases hm : op.method = [] <;>
    simp [requestNew, hm, getNextRequestBody, seekerLen]

/-- C10 witness: `request.New` on an operation with empty method and
empty content type. -/
theorem requestNew_defaults_witness :
    (requestNew ⟨[], []⟩).httpMethod = "POST".toList ∧
    (requestNew ⟨[], []⟩).contentTypeHeader = "application/json".toList ∧
    (requestNew ⟨[], []⟩).httpBody = some .noBody :=
  ⟨(requestNew_defaults ⟨[], []⟩).1 rfl, (requestNew_defaults ⟨[], []⟩).2.1 rfl,
    (requestNew_defaults ⟨[], []⟩).2.2⟩

theorem partSizes_step {n : Nat} (h : 0 < n) :
    partSizes n = partBufLen n :: partSizes (n - partBufLen n) := by
  rw [partSizes, partBufLen]
  by_cases h1 : n < DefaultUploadPartSize
  · rw [if_neg (by omega), if_pos h1, if_pos h1, partSizes, if_pos (by omega)]
  · rw [if_neg (by omega), if_neg h1, if_neg h1]

theorem uploadParts_sizes_aux (t : Nat) (e : Nat → List Char) :
    ∀ n st, t - st.readPos = n →
      ((uploadParts t e st).parts.map CompletedPart.size) =
        st.parts.map CompletedPart.size ++ partSizes (t - st.readPos) := by
  intro n
  induction n using Nat.strong_induction_on with
  | _ n ih =>
    intro st hst
    rw [uploadParts]
    split
    next h =>
      have hpos : 0 < t - st.readPos := by omega
      have hbuf := partBufLen_pos hpos
      rw [ih (t - (st.readPos + partBufLen (t - st.readPos))) (by omega) _ rfl]
      simp only [List.map_append, List.map_cons, List.map_nil, List.append_assoc]
      rw [partSizes_step hpos]
      have : t - (st.readPos + partBufLen (t - st.readPos)) =
          (t - st.readPos) - partBufLen (t - st.readPos) := by omega
      rw [this]
      simp
    next h =>
      have : t - st.readPos = 0 := by omega
      rw [this, partSizes, if_pos rfl, List.append_nil]

theorem partSizes_exact :
    partSizes DefaultUploadPartSize = [DefaultUploadPartSize] := by
  rw [partSizes]
  rw [if_neg (by unfold DefaultUploadPartSize; omega), if_neg (by omega)]
  rw [Nat.sub_self, partSizes, if_pos rfl]

theorem partSizes_mul_add (k r : Nat) (h1 : 0 < r) (h2 : r < DefaultUploadPartSize) :
    partSizes (DefaultUploadPartSize * k + r) =
      List.replicate k DefaultUploadPartSize ++ [r] := by
  induction k with
  | zero =>
    rw [Nat.mul_zero, Nat.zero_add, partSizes, if_neg (by omega), if_pos h2]
    simp
  | succ k ihk =>
    have hP : 0 < DefaultUploadPartSize := by unfold DefaultUploadPartSize; omega
    rw [partSizes, if_neg (by nlinarith), if_neg (by nlinarith)]
    have : DefaultUploadPartSize * (k + 1) + r - DefaultUploadPartSize =
        DefaultUploadPartSize * k + r := by ring_nf; omega
    rw [this, ihk]
    simp [List.replicate_succ]

theorem partSizes_mul_add_length (k r : Nat) (h1 : 0 < r)
    (h2 : r < DefaultUploadPartSize) :
    (partSizes (DefaultUploadPartSize * k + r)).length = k + 1 := by
  rw [partSizes_mul_add k r h1 h2]
  simp

theorem uploadParts_sizes_fresh (t : Nat) (e : Nat → List Char) :
    (uploadParts t e ⟨0, 0, []⟩).parts.map CompletedPart.size = partSizes t := by
  have h := uploadParts_sizes_aux t e (t - 0) ⟨0, 0, []⟩ rfl
  simpa using h

theorem uploadParts_length_fresh (t : Nat) (e : Nat → List Char) :
    (uploadParts t e ⟨0, 0, []⟩).parts.length = (partSizes t).length := by
  have h := congrArg List.length (uploadParts_sizes_fresh t e)
  simpa using h

/-- C6: for a seekable source of exactly `DefaultUploadPartSize` bytes
the multipart uploader produces exactly one part, and for a source of
`DefaultUploadPartSize * k + r` bytes with `0 < r <
DefaultUploadPartSize` it produces `k + 1` parts whose sizes are `k`
full parts of `DefaultUploadPartSize` bytes followed by a final part of
`r` bytes. -/
theorem uploadParts_part_sizes (etagOf : Nat → List Char) (k r : Nat)
    (h1 : 0 < r) (h2 : r < DefaultUploadPartSize) :
    ((uploadParts DefaultUploadPartSize etagOf ⟨0, 0, []⟩).parts.map
        CompletedPart.size = [DefaultUploadPartSize]) ∧
    ((uploadParts (DefaultUploadPartSize * k + r) etagOf ⟨0, 0, []⟩).parts.map
        CompletedPart.size =
      List.replicate k DefaultUploadPartSize ++ [r]) ∧
    (uploadParts (DefaultUploadPartSize * k + r) etagOf ⟨0, 0, []⟩).parts.length
      = k + 1 :=
  ⟨(uploadParts_sizes_fresh DefaultUploadPartSize etagOf).trans partSizes_exact,
    (uploadParts_sizes_fresh (DefaultUploadPartSize * k + r) etagOf).trans
      (partSizes_mul_add k r h1 h2),
    (uploadParts_length_fresh (DefaultUploadPartSize * k + r) etagOf).trans
      (partSizes_mul_add_length k r h1 h2)⟩

/-- C6 witness: a source of one full part plus one byte. -/
theorem uploadParts_part_sizes_witness :
    ((0 : Nat) < 1 ∧ (1 : Nat) < DefaultUploadPartSize) ∧
    ((uploadParts DefaultUploadPartSize (fun _ => []) ⟨0, 0, []⟩).parts.map
        CompletedPart.size = [DefaultUploadPartSize]) ∧
    ((uploadParts (DefaultUploadPartSize * 1 + 1) (fun _ => []) ⟨0, 0, []⟩).parts.map
        CompletedPart.size =
      List.replicate 1 DefaultUploadPartSize ++ [1]) ∧
    (uploadParts (DefaultUploadPartSize * 1 + 1) (fun _ => []) ⟨0, 0, []⟩).parts.length
      = 1 + 1 :=
  ⟨⟨by decide, by unfold DefaultUploadPartSize; omega⟩,
    uploadParts_part_sizes (fun _ => []) 1 1 (by decide)
      (by unfold DefaultUploadPartSize; omega)⟩

theorem uploadParts_inv (t : Nat) (e : Nat → List Char) :
    ∀ n st, t - st.readPos = n →
      (∀ p ∈ st.parts, p.index ≤ st.lastIndex) →
      (st.parts.map CompletedPart.index).Nodup →
      (∀ p ∈ (uploadParts t e st).parts,
          p.index ≤ (uploadParts t e st).lastIndex) ∧
        ((uploadParts t e st).parts.map CompletedPart.index).Nodup := by
  intro n
  induction n using Nat.strong_induction_on with
  | _ n ih =>
    intro st hst hb hnd
    rw [uploadParts]
    split
    next h =>
      have hpos : 0 < t - st.readPos := by omega
      have hbuf := partBufLen_pos hpos
      apply ih (t - (st.readPos + partBufLen (t - st.readPos))) (by omega) _ rfl
      · intro p hp
        simp only [List.mem_append, List.mem_singleton] at hp
        rcases hp with hp | hp
        · exact Nat.le_succ_of_le (hb p hp)
        · simp [hp]
      · simp only [List.map_append, List.map_cons, List.map_nil]
        rw [List.nodup_append]
        refine ⟨hnd, List.nodup_singleton _, ?_⟩
        intro i hi hi'
        simp only [List.mem_singleton] at hi'
        simp only [List.mem_map] at hi
        obtain ⟨p, hp, hpi⟩ := hi
        have := hb p hp
        omega
    next h =>
      exact ⟨hb, hnd⟩

/-- C5: for every multipart upload whose initial manifest satisfies the
uploader's invariant (every recorded index is at most `lastIndex`, no
index is recorded twice — true of the fresh state and of any state
recovered from a record this uploader stored), the manifest that
`completeRequest` sorts and serializes into the Complete request body
is strictly ascending in `partNumber`: sorted ascending with no two
entries sharing a `partNumber`. -/
theorem completeRequest_parts_sorted_nodup (t : Nat)
    (etagOf : Nat → List Char) (st : UploaderState)
    (hbound : ∀ p ∈ st.parts, p.index ≤ st.lastIndex)
    (hnodup : (st.parts.map CompletedPart.index).Nodup) :
    (sortParts (uploadParts t etagOf st).parts).Pairwise
      (fun a b => a.index < b.index) := by
  have hinv := uploadParts_inv t etagOf (t - st.readPos) st rfl hbound hnodup
  have hsorted : ((uploadParts t etagOf st).parts.mergeSort partLe).Pairwise
      (fun a b => partLe a b = true) :=
    List.sorted_mergeSort
      (by intro a b c hab hbc; simp only [partLe, decide_eq_true_eq] at *; omega)
      (by
        intro a b
        simp only [partLe]
        by_cases h : a.index ≤ b.index
        · simp [h]
        · simp [h]; omega)
      (uploadParts t etagOf st).parts
  have hperm := List.mergeSort_perm (uploadParts t etagOf st).parts partLe
  have hnd : (((uploadParts t etagOf st).parts.mergeSort partLe).map
      CompletedPart.index).Nodup :=
    ((hperm.map CompletedPart.index).nodup_iff).mpr hinv.2
  have hne : ((uploadParts t etagOf st).parts.mergeSort partLe).Pairwise
      (fun a b => a.index ≠ b.index) := List.pairwise_map.mp hnd
  unfold sortParts
  exact (hsorted.and hne).imp (by
    intro a b hab
    obtain ⟨h1, h2⟩ := hab
    simp only [partLe, decide_eq_true_eq] at h1
    omega)

/-- C7: the canonical string built by `collectDataV2` is exactly the
format the claim states: method, space, path with optional `?query`,
`\nHost: host`, an optional `\nContent-Type: ct` when one is set, two
newlines, and the body iff the content type is form-urlencoded or
application/json and a body is present. -/
theorem collectDataV2_spec (req : SignReq) :
    collectDataV2 req = specCanonicalV2 req := by
  unfold collectDataV2 specCanonicalV2
  cases hb : req.body with
  | none =>
    have h0 : incBodyV2 req = false := by simp [incBodyV2, hb]
    by_cases hq : req.rawQuery = [] <;> by_cases hct : req.contentType = [] <;>
      simp [h0, hb, hq, hct, List.append_assoc]
  | some b =>
    by_cases hty : req.contentType = CONTENT_TYPE_FORM ∨ req.contentType = CONTENT_TYPE_JSON
    · have h1 : incBodyV2 req = true := by
        rcases hty with h | h <;> simp [incBodyV2, hb, h]
      have hct : ¬req.contentType = [] := by
        rcases hty with h | h <;> rw [h] <;> simp [CONTENT_TYPE_FORM, CONTENT_TYPE_JSON]
      by_cases hq : req.rawQuery = [] <;>
        simp [h1, hb, hq, hct, hty, List.append_assoc]
    · have hA := (not_or.mp hty).1
      have hB := (not_or.mp hty).2
      have h1 : incBodyV2 req = false := by simp [incBodyV2, hb, hA, hB]
      by_cases hq : req.rawQuery = [] <;> by_cases hct : req.contentType = [] <;>
        simp [h1, hb, hq, hct, hty, List.append_assoc] <;>
          simp [CONTENT_TYPE_FORM, CONTENT_TYPE_JSON]

/-- Sanity example (spec §8, scenario 6): the literal canonical string
for `GET /find/sdk?v=2` on host `upload.qiniup.com` with a
form-urlencoded body. -/
theorem collectDataV2_literal_example :
    collectDataV2
      ⟨"GET".toList, "/find/sdk".toList, "v=2".toList, "upload.qiniup.com".toList,
        "application/x-www-form-urlencoded".toList, some "name=test&language=go".toList⟩ =
      ("GET /find/sdk?v=2\nHost: upload.qiniup.com\nContent-Type: " ++
        "application/x-www-form-urlencoded\n\nname=test&language=go").toList := by
  decide

theorem charToNat_lt (c : Char) : c.toNat < 1114112 := by
  have h := c.valid
  unfold UInt32.isValidChar Nat.isValidChar at h
  rcases h with h | ⟨h1, h2⟩
  · unfold Char.toNat; omega
  · unfold Char.toNat; omega

theorem charToNat_ofNat {n : Nat} (h : n.isValidChar) : (Char.ofNat n).toNat = n := by
  unfold Char.ofNat Char.toNat
  rw [dif_pos h]
  rfl

theorem hexVal_hexDigit : ∀ k, k < 16 → hexVal (hexDigit k) = some k := by decide

theorem utf8Step_escape (c : Char) (tail : List Nat) :
    utf8Step (jsonEscapeChar c ++ tail) = some (c, tail) := by
  have hlt := charToNat_lt c
  by_cases h34 : c.toNat = 34
  · have hc : Char.ofNat 34 = c := by rw [← h34]; exact Char.ofNat_toNat c
    rw [show jsonEscapeChar c = [92, 34] from by simp [jsonEscapeChar, h34]]
    simp [utf8Step, escStep, escChar]
    exact hc
  by_cases h92 : c.toNat = 92
  · have hc : Char.ofNat 92 = c := by rw [← h92]; exact Char.ofNat_toNat c
    rw [show jsonEscapeChar c = [92, 92] from by simp [jsonEscapeChar, h34, h92]]
    simp [utf8Step, escStep, escChar]
    exact hc
  by_cases h10 : c.toNat = 10
  · have hc : Char.ofNat 10 = c := by rw [← h10]; exact Char.ofNat_toNat c
    rw [show jsonEscapeChar c = [92, 110] from by simp [jsonEscapeChar, h34, h92, h10]]
    simp [utf8Step, escStep, escChar]
    exact hc
  by_cases h13 : c.toNat = 13
  · have hc : Char.ofNat 13 = c := by rw [← h13]; exact Char.ofNat_toNat c
    rw [show jsonEscapeChar c = [92, 114] from by
      simp [jsonEscapeChar, h34, h92, h10, h13]]
    simp [utf8Step, escStep, escChar]
    exact hc
  by_cases h9 : c.toNat = 9
  · have hc : Char.ofNat 9 = c := by rw [← h9]; exact Char.ofNat_toNat c
    rw [show jsonEscapeChar c = [92, 116] from by
      simp [jsonEscapeChar, h34, h92, h10, h13, h9]]
    simp [utf8Step, escStep, escChar]
    exact hc
  by_cases hctl : c.toNat < 32 ∨ c.toNat = 60 ∨ c.toNat = 62 ∨ c.toNat = 38
  · have hn16 : c.toNat < 65536 := by rcases hctl with h | h | h | h <;> omega
    have hv1 : hexVal (hexDigit (c.toNat / 4096 % 16)) = some (c.toNat / 4096 % 16) :=
      hexVal_hexDigit _ (by omega)
    have hv2 : hexVal (hexDigit (c.toNat / 256 % 16)) = some (c.toNat / 256 % 16) :=
      hexVal_hexDigit _ (by omega)
    have hv3 : hexVal (hexDigit (c.toNat / 16 % 16)) = some (c.toNat / 16 % 16) :=
      hexVal_hexDigit _ (by omega)
    have hv4 : hexVal (hexDigit (c.toNat % 16)) = some (c.toNat % 16) :=
      hexVal_hexDigit _ (by omega)
    have harith : c.toNat / 4096 % 16 * 4096 + c.toNat / 256 % 16 * 256 +
        c.toNat / 16 % 16 * 16 + c.toNat % 16 = c.toNat := by omega
    rw [show jsonEscapeChar c = 92 :: 117 :: hex4 c.toNat from by
      simp [jsonEscapeChar, h34, h92, h10, h13, h9, hctl]]
    simp [utf8Step, escStep, uStep, hex4, hexVal4, hv1, hv2, hv3, hv4, harith]
  by_cases h2028 : c.toNat = 8232 ∨ c.toNat = 8233
  · have hn16 : c.toNat < 65536 := by rcases h2028 with h | h <;> omega
    have hv1 : hexVal (hexDigit (c.toNat / 4096 % 16)) = some (c.toNat / 4096 % 16) :=
      hexVal_hexDigit _ (by omega)
    have hv2 : hexVal (hexDigit (c.toNat / 256 % 16)) = some (c.toNat / 256 % 16) :=
      hexVal_hexDigit _ (by omega)
    have hv3 : hexVal (hexDigit (c.toNat / 16 % 16)) = some (c.toNat / 16 % 16) :=
      hexVal_hexDigit _ (by omega)
    have hv4 : hexVal (hexDigit (c.toNat % 16)) = some (c.toNat % 16) :=
      hexVal_hexDigit _ (by omega)
    have harith : c.toNat / 4096 % 16 * 4096 + c.toNat / 256 % 16 * 256 +
        c.toNat / 16 % 16 * 16 + c.toNat % 16 = c.toNat := by omega
    rw [show jsonEscapeChar c = 92 :: 117 :: hex4 c.toNat from by
      simp [jsonEscapeChar, h34, h92, h10, h13, h9, hctl, h2028]]
    simp [utf8Step, escStep, uStep, hex4, hexVal4, hv1, hv2, hv3, hv4, harith]
  have hesc : jsonEscapeChar c = utf8EncodeChar c := by
    simp [jsonEscapeChar, h34, h92, h10, h13, h9, hctl, h2028]
  rw [hesc]
  by_cases ha : c.toNat < 128
  · rw [show utf8EncodeChar c = [c.toNat] from by simp [utf8EncodeChar, ha]]
    simp [utf8Step, h34, h92, ha]
  by_cases h2b : c.toNat < 2048
  · rw [show utf8EncodeChar c = [192 + c.toNat / 64, 128 + c.toNat % 64] from by
      simp [utf8EncodeChar, ha, h2b]]
    have hb1 : ¬(192 + c.toNat / 64 = 34) := by omega
    have hb2 : ¬(192 + c.toNat / 64 = 92) := by omega
    have hb3 : ¬(192 + c.toNat / 64 < 128) := by omega
    have hb4 : 192 + c.toNat / 64 < 224 := by omega
    simp [utf8Step, twoByteStep, hb1, hb2, hb3, hb4]
    rw [show c.toNat / 64 * 64 + c.toNat % 64 = c.toNat from by omega]
    exact Char.ofNat_toNat c
  by_cases h3b : c.toNat < 65536
  · rw [show utf8EncodeChar c =
        [224 + c.toNat / 4096, 128 + c.toNat / 64 % 64, 128 + c.toNat % 64] from by
      simp [utf8EncodeChar, ha, h2b, h3b]]
    have hb1 : ¬(224 + c.toNat / 4096 = 34) := by omega
    have hb2 : ¬(224 + c.toNat / 4096 = 92) := by omega
    have hb3 : ¬(224 + c.toNat / 4096 < 128) := by omega
    have hb4 : ¬(224 + c.toNat / 4096 < 224) := by omega
    have hb5 : 224 + c.toNat / 4096 < 240 := by omega
    simp [utf8Step, threeByteStep, hb1, hb2, hb3, hb4, hb5]
    rw [show c.toNat / 4096 * 4096 + c.toNat / 64 % 64 * 64 + c.toNat % 64 = c.toNat
      from by omega]
    exact Char.ofNat_toNat c
  · rw [show utf8EncodeChar c =
        [240 + c.toNat / 262144, 128 + c.toNat / 4096 % 64, 128 + c.toNat / 64 % 64,
          128 + c.toNat % 64] from by simp [utf8EncodeChar, ha, h2b, h3b]]
    have hb1 : ¬(240 + c.toNat / 262144 = 34) := by omega
    have hb2 : ¬(240 + c.toNat / 262144 = 92) := by omega
    have hb3 : ¬(240 + c.toNat / 262144 < 128) := by omega
    have hb4 : ¬(240 + c.toNat / 262144 < 224) := by omega
    have hb5 : ¬(240 + c.toNat / 262144 < 240) := by omega
    simp [utf8Step, fourByteStep, hb1, hb2, hb3, hb4, hb5]
    rw [show c.toNat / 262144 * 262144 + c.toNat / 4096 % 64 * 4096 +
      c.toNat / 64 % 64 * 64 + c.toNat % 64 = c.toNat from by omega]
    exact Char.ofNat_toNat c

theorem parseStringBody_quote (r : List Nat) : parseStringBody (34 :: r) = some ([], r) := by
  rw [parseStringBody]
  simp

theorem parseStringBody_step {b1 : Nat} {rest rest2 : List Nat} {ch : Char}
    (hb : ¬b1 = 34) (hs : utf8Step (b1 :: rest) = some (ch, rest2)) :
    parseStringBody (b1 :: rest) =
      (fun pr => (ch :: pr.1, pr.2)) <$> parseStringBody rest2 := by
  rw [parseStringBody]
  rw [if_neg hb]
  split
  · next ch' rest2' heq =>
    rw [hs] at heq
    cases heq
    rfl
  · next heq =>
    rw [hs] at heq
    cases heq

theorem jsonEscapeChar_shape (c : Char) :
    ∃ b bs, jsonEscapeChar c = b :: bs ∧ ¬b = 34 := by
  by_cases h34 : c.toNat = 34
  · exact ⟨92, [34], by simp [jsonEscapeChar, h34], by omega⟩
  by_cases h92 : c.toNat = 92
  · exact ⟨92, [92], by simp [jsonEscapeChar, h34, h92], by omega⟩
  by_cases h10 : c.toNat = 10
  · exact ⟨92, [110], by simp [jsonEscapeChar, h34, h92, h10], by omega⟩
  by_cases h13 : c.toNat = 13
  · exact ⟨92, [114], by simp [jsonEscapeChar, h34, h92, h10, h13], by omega⟩
  by_cases h9 : c.toNat = 9
  · exact ⟨92, [116], by simp [jsonEscapeChar, h34, h92, h10, h13, h9], by omega⟩
  by_cases hctl : c.toNat < 32 ∨ c.toNat = 60 ∨ c.toNat = 62 ∨ c.toNat = 38
  · exact ⟨92, 117 :: hex4 c.toNat,
      by simp [jsonEscapeChar, h34, h92, h10, h13, h9, hctl], by omega⟩
  by_cases h2028 : c.toNat = 8232 ∨ c.toNat = 8233
  · exact ⟨92, 117 :: hex4 c.toNat,
      by simp [jsonEscapeChar, h34, h92, h10, h13, h9, hctl, h2028], by omega⟩
  have hesc : jsonEscapeChar c = utf8EncodeChar c := by
    simp [jsonEscapeChar, h34, h92, h10, h13, h9, hctl, h2028]
  by_cases ha : c.toNat < 128
  · exact ⟨c.toNat, [], by rw [hesc]; simp [utf8EncodeChar, ha], h34⟩
  by_cases h2b : c.toNat < 2048
  · exact ⟨192 + c.toNat / 64, [128 + c.toNat % 64],
      by rw [hesc]; simp [utf8EncodeChar, ha, h2b], by omega⟩
  by_cases h3b : c.toNat < 65536
  · exact ⟨224 + c.toNat / 4096, [128 + c.toNat / 64 % 64, 128 + c.toNat % 64],
      by rw [hesc]; simp [utf8EncodeChar, ha, h2b, h3b], by omega⟩
  · exact ⟨240 + c.toNat / 262144,
      [128 + c.toNat / 4096 % 64, 128 + c.toNat / 64 % 64, 128 + c.toNat % 64],
      by rw [hesc]; simp [utf8EncodeChar, ha, h2b, h3b], by omega⟩

theorem parseStringBody_escape (c : Char) (tail : List Nat) :
    parseStringBody (jsonEscapeChar c ++ tail) =
      (fun pr => (c :: pr.1, pr.2)) <$> parseStringBody tail := by
  obtain ⟨b, bs, hbs, hb34⟩ := jsonEscapeChar_shape c
  have hstep : utf8Step (b :: (bs ++ tail)) = some (c, tail) := by
    rw [← List.cons_append, ← hbs]
    exact utf8Step_escape c tail
  rw [hbs, List.cons_append]
  exact parseStringBody_step hb34 hstep

theorem parseStringBody_round (s : List Char) (r : List Nat) :
    parseStringBody ((s.map jsonEscapeChar).flatten ++ 34 :: r) = some (s, r) := by
  induction s with
  | nil => simpa using parseStringBody_quote r
  | cons c s ih =>
    simp only [List.map_cons, List.flatten_cons, List.append_assoc]
    rw [parseStringBody_escape, ih]
    rfl

theorem parseJsonString_round (s : List Char) (tail : List Nat) :
    parseJsonString (jsonStringBytes s ++ tail) = some (s, tail) := by
  rw [jsonStringBytes]
  simp only [List.cons_append, List.append_assoc, List.nil_append, parseJsonString]
  simp only [if_true]
  exact parseStringBody_round s tail

theorem natToBytes_digits (n : Nat) : ∀ d ∈ natToBytes n, 48 ≤ d ∧ d ≤ 57 := by
  intro d hd
  unfold natToBytes at hd
  split at hd
  · simp at hd
    omega
  · simp only [List.mem_map, List.mem_reverse] at hd
    obtain ⟨x, hx, hxd⟩ := hd
    have := Nat.digits_lt_base (by norm_num) hx
    omega

theorem natToBytes_ne_nil (n : Nat) : natToBytes n ≠ [] := by
  unfold natToBytes
  split
  · simp
  · next h =>
    have hne : Nat.digits 10 n ≠ [] := Nat.digits_ne_nil_iff_ne_zero.mpr h
    simp [hne]

theorem parseDigits_stop {b : Nat} (tl : List Nat) (hb : ¬(48 ≤ b ∧ b ≤ 57)) :
    ∀ acc, parseDigits (b :: tl) acc = (acc, b :: tl) := by
  intro acc
  simp [parseDigits, hb]

theorem parseDigits_append (ds : List Nat) (hds : ∀ d ∈ ds, 48 ≤ d ∧ d ≤ 57)
    (tail : List Nat) (hnd : ∀ acc, parseDigits tail acc = (acc, tail)) :
    ∀ acc, parseDigits (ds ++ tail) acc =
      (ds.foldl (fun a d => a * 10 + (d - 48)) acc, tail) := by
  induction ds with
  | nil =>
    intro acc
    simpa using hnd acc
  | cons d ds ih =>
    intro acc
    have hd := hds d (by simp)
    simp only [List.cons_append, parseDigits, if_pos hd, List.append_eq]
    rw [ih (fun x hx => hds x (by simp [hx]))]
    simp

theorem foldl_digits_rev (l : List Nat) :
    ∀ acc, List.foldl (fun a d => a * 10 + (d - 48)) acc (l.reverse.map (· + 48)) =
      acc * 10 ^ l.length + Nat.ofDigits 10 l := by
  induction l with
  | nil =>
    intro acc
    simp [Nat.ofDigits]
  | cons d l ih =>
    intro acc
    simp only [List.reverse_cons, List.map_append, List.map_cons, List.map_nil,
      List.foldl_append, List.foldl_cons, List.foldl_nil]
    rw [ih acc, Nat.ofDigits_cons]
    have hd : d + 48 - 48 = d := by omega
    rw [hd]
    simp [pow_succ]
    ring

theorem foldl_natToBytes (n : Nat) :
    (natToBytes n).foldl (fun a d => a * 10 + (d - 48)) 0 = n := by
  unfold natToBytes
  split
  · next h =>
    subst h
    simp
  · rw [foldl_digits_rev _ 0]
    simp [Nat.ofDigits_digits]

theorem parseNat_eq_digits (ds : List Nat) (hne : ds ≠ [])
    (hds : ∀ d ∈ ds, 48 ≤ d ∧ d ≤ 57) (tail : List Nat)
    (hnd : ∀ acc, parseDigits tail acc = (acc, tail)) :
    parseNat (ds ++ tail) =
      some (ds.foldl (fun a d => a * 10 + (d - 48)) 0, tail) := by
  match ds, hne with
  | d :: ds', _ =>
    simp only [List.cons_append, parseNat]
    rw [if_pos (hds d (by simp))]
    rw [parseDigits_append ds' (fun x hx => hds x (by simp [hx])) tail hnd]
    simp

theorem parseNat_round (n : Nat) (tail : List Nat)
    (hnd : ∀ acc, parseDigits tail acc = (acc, tail)) :
    parseNat (natToBytes n ++ tail) = some (n, tail) := by
  rw [parseNat_eq_digits (natToBytes n) (natToBytes_ne_nil n) (natToBytes_digits n)
    tail hnd, foldl_natToBytes]

theorem natToBytes_cons (n : Nat) :
    ∃ d ds, natToBytes n = d :: ds ∧ 48 ≤ d ∧ d ≤ 57 := by
  cases hb : natToBytes n with
  | nil => exact absurd hb (natToBytes_ne_nil n)
  | cons d ds =>
    have := natToBytes_digits n d (by rw [hb]; simp)
    exact ⟨d, ds, rfl, this⟩

theorem parseInt_round (v : Int) (tail : List Nat)
    (hnd : ∀ acc, parseDigits tail acc = (acc, tail)) :
    parseInt (intToBytes v ++ tail) = some (v, tail) := by
  by_cases hv : v < 0
  · rw [show intToBytes v = 45 :: natToBytes v.natAbs from by simp [intToBytes, hv]]
    have hneg : -(v.natAbs : Int) = v := by omega
    simp [parseInt, parseNat_round v.natAbs tail hnd, hneg]
    rw [abs_of_neg hv]
    ring
  · rw [show intToBytes v = natToBytes v.toNat from by simp [intToBytes, hv]]
    obtain ⟨d, ds, hds, hd1, hd2⟩ := natToBytes_cons v.toNat
    have h45 : ¬(d = 45) := by omega
    have hpos : ((v.toNat : Int)) = v := by omega
    rw [hds, List.cons_append]
    simp only [parseInt]
    rw [if_neg h45, ← List.cons_append, ← hds, parseNat_round v.toNat tail hnd]
    simp [hpos]

theorem parseBool_true (tail : List Nat) :
    parseBool (116 :: 114 :: 117 :: 101 :: tail) = some (true, tail) := by
  simp [parseBool]

theorem parseBool_false (tail : List Nat) :
    parseBool (102 :: 97 :: 108 :: 115 :: 101 :: tail) = some (false, tail) := by
  simp [parseBool]

theorem parseFieldValue_scope (l : List Nat) :
    parseFieldValue ['s', 'c', 'o', 'p', 'e'] l =
      (fun pr => (PField.scope pr.1, pr.2)) <$> parseJsonString l := rfl

theorem parseFieldValue_deadline (l : List Nat) :
    parseFieldValue ['d', 'e', 'a', 'd', 'l', 'i', 'n', 'e'] l =
      (fun pr => (PField.deadline pr.1, pr.2)) <$> parseNat l := rfl

theorem parseFieldValue_isPrefixalScope (l : List Nat) :
    parseFieldValue ['i', 's', 'P', 'r', 'e', 'f', 'i', 'x', 'a', 'l', 'S', 'c', 'o', 'p', 'e'] l =
      (fun pr => (PField.isPrefixalScope pr.1, pr.2)) <$> parseInt l := rfl

theorem parseFieldValue_insertOnly (l : List Nat) :
    parseFieldValue ['i', 'n', 's', 'e', 'r', 't', 'O', 'n', 'l', 'y'] l =
      (fun pr => (PField.insertOnly pr.1, pr.2)) <$> parseNat l := rfl

theorem parseFieldValue_forceSaveKey (l : List Nat) :
    parseFieldValue ['f', 'o', 'r', 'c', 'e', 'S', 'a', 'v', 'e', 'K', 'e', 'y'] l =
      (fun pr => (PField.forceSaveKey pr.1, pr.2)) <$> parseBool l := rfl

theorem parseFieldValue_detectMime (l : List Nat) :
    parseFieldValue ['d', 'e', 't', 'e', 'c', 't', 'M', 'i', 'm', 'e'] l =
      (fun pr => (PField.detectMime pr.1, pr.2)) <$> parseNat l := rfl

theorem parseFieldValue_fsizeLimit (l : List Nat) :
    parseFieldValue ['f', 's', 'i', 'z', 'e', 'L', 'i', 'm', 'i', 't'] l =
      (fun pr => (PField.fsizeLimit pr.1, pr.2)) <$> parseInt l := rfl

theorem parseFieldValue_fsizeMin (l : List Nat) :
    parseFieldValue ['f', 's', 'i', 'z', 'e', 'M', 'i', 'n'] l =
      (fun pr => (PField.fsizeMin pr.1, pr.2)) <$> parseInt l := rfl

theorem parseFieldValue_mimeLimit (l : List Nat) :
    parseFieldValue ['m', 'i', 'm', 'e', 'L', 'i', 'm', 'i', 't'] l =
      (fun pr => (PField.mimeLimit pr.1, pr.2)) <$> parseJsonString l := rfl

theorem parseFieldValue_saveKey (l : List Nat) :
    parseFieldValue ['s', 'a', 'v', 'e', 'K', 'e', 'y'] l =
      (fun pr => (PField.saveKey pr.1, pr.2)) <$> parseJsonString l := rfl

theorem parseFieldValue_callbackFetchKey (l : List Nat) :
    parseFieldValue ['c', 'a', 'l', 'l', 'b', 'a', 'c', 'k', 'F', 'e', 't', 'c', 'h', 'K', 'e', 'y'] l =
      (fun pr => (PField.callbackFetchKey pr.1, pr.2)) <$> parseNat l := rfl

theorem parseFieldValue_callbackURL (l : List Nat) :
    parseFieldValue ['c', 'a', 'l', 'l', 'b', 'a', 'c', 'k', 'U', 'r', 'l'] l =
      (fun pr => (PField.callbackURL pr.1, pr.2)) <$> parseJsonString l := rfl

theorem parseFieldValue_callbackHost (l : List Nat) :
    parseFieldValue ['c', 'a', 'l', 'l', 'b', 'a', 'c', 'k', 'H', 'o', 's', 't'] l =
      (fun pr => (PField.callbackHost pr.1, pr.2)) <$> parseJsonString l := rfl

theorem parseFieldValue_callbackBody (l : List Nat) :
    parseFieldValue ['c', 'a', 'l', 'l', 'b', 'a', 'c', 'k', 'B', 'o', 'd', 'y'] l =
      (fun pr => (PField.callbackBody pr.1, pr.2)) <$> parseJsonString l := rfl

theorem parseFieldValue_callbackBodyType (l : List Nat) :
    parseFieldValue ['c', 'a', 'l', 'l', 'b', 'a', 'c', 'k', 'B', 'o', 'd', 'y', 'T', 'y', 'p', 'e'] l =
      (fun pr => (PField.callbackBodyType pr.1, pr.2)) <$> parseJsonString l := rfl

theorem parseFieldValue_returnURL (l : List Nat) :
    parseFieldValue ['r', 'e', 't', 'u', 'r', 'n', 'U', 'r', 'l'] l =
      (fun pr => (PField.returnURL pr.1, pr.2)) <$> parseJsonString l := rfl

theorem parseFieldValue_returnBody (l : List Nat) :
    parseFieldValue ['r', 'e', 't', 'u', 'r', 'n', 'B', 'o', 'd', 'y'] l =
      (fun pr => (PField.returnBody pr.1, pr.2)) <$> parseJsonString l := rfl

theorem parseFieldValue_persistentOps (l : List Nat) :
    parseFieldValue ['p', 'e', 'r', 's', 'i', 's', 't', 'e', 'n', 't', 'O', 'p', 's'] l =
      (fun pr => (PField.persistentOps pr.1, pr.2)) <$> parseJsonString l := rfl

theorem parseFieldValue_persistentNotifyURL (l : List Nat) :
    parseFieldValue ['p', 'e', 'r', 's', 'i', 's', 't', 'e', 'n', 't', 'N', 'o', 't', 'i', 'f', 'y', 'U', 'r', 'l'] l =
      (fun pr => (PField.persistentNotifyURL pr.1, pr.2)) <$> parseJsonString l := rfl

theorem parseFieldValue_persistentPipeline (l : List Nat) :
    parseFieldValue ['p', 'e', 'r', 's', 'i', 's', 't', 'e', 'n', 't', 'P', 'i', 'p', 'e', 'l', 'i', 'n', 'e'] l =
      (fun pr => (PField.persistentPipeline pr.1, pr.2)) <$> parseJsonString l := rfl

theorem parseFieldValue_endUser (l : List Nat) :
    parseFieldValue ['e', 'n', 'd', 'U', 's', 'e', 'r'] l =
      (fun pr => (PField.endUser pr.1, pr.2)) <$> parseJsonString l := rfl

theorem parseFieldValue_deleteAfterDays (l : List Nat) :
    parseFieldValue ['d', 'e', 'l', 'e', 't', 'e', 'A', 'f', 't', 'e', 'r', 'D', 'a', 'y', 's'] l =
      (fun pr => (PField.deleteAfterDays pr.1, pr.2)) <$> parseInt l := rfl

theorem parseFieldValue_fileType (l : List Nat) :
    parseFieldValue ['f', 'i', 'l', 'e', 'T', 'y', 'p', 'e'] l =
      (fun pr => (PField.fileType pr.1, pr.2)) <$> parseInt l := rfl

theorem parseFieldAndAssign_render (f : PField) (p : PutPolicy) (tail : List Nat)
    (hnd : ∀ acc, parseDigits tail acc = (acc, tail)) :
    parseFieldAndAssign (renderField f ++ tail) p = some (setField p f, tail) := by
  cases f with
  | scope v =>
    simp only [renderField, fieldName, fieldValueBytes, List.append_assoc,
      List.cons_append]
    simp [parseFieldAndAssign, parseJsonString_round, parseFieldValue_scope, setField]
  | deadline v =>
    simp only [renderField, fieldName, fieldValueBytes, List.append_assoc,
      List.cons_append]
    simp [parseFieldAndAssign, parseJsonString_round, parseFieldValue_deadline,
      parseNat_round v tail hnd, setField]
  | isPrefixalScope v =>
    simp only [renderField, fieldName, fieldValueBytes, List.append_assoc,
      List.cons_append]
    simp [parseFieldAndAssign, parseJsonString_round, parseFieldValue_isPrefixalScope,
      parseInt_round v tail hnd, setField]
  | insertOnly v =>
    simp only [renderField, fieldName, fieldValueBytes, List.append_assoc,
      List.cons_append]
    simp [parseFieldAndAssign, parseJsonString_round, parseFieldValue_insertOnly,
      parseNat_round v tail hnd, setField]
  | forceSaveKey v =>
    cases v with
    | true =>
      rw [show renderField (.forceSaveKey true) =
        jsonStringBytes "forceSaveKey".toList ++ 58 :: [116, 114, 117, 101] from by decide]
      simp only [List.append_assoc, List.cons_append]
      simp [parseFieldAndAssign, parseJsonString_round, parseFieldValue_forceSaveKey,
        parseBool_true, setField]
    | false =>
      rw [show renderField (.forceSaveKey false) =
        jsonStringBytes "forceSaveKey".toList ++ 58 :: [102, 97, 108, 115, 101] from by
          decide]
      simp only [List.append_assoc, List.cons_append]
      simp [parseFieldAndAssign, parseJsonString_round, parseFieldValue_forceSaveKey,
        parseBool_false, setField]
  | detectMime v =>
    simp only [renderField, fieldName, fieldValueBytes, List.append_assoc,
      List.cons_append]
    simp [parseFieldAndAssign, parseJsonString_round, parseFieldValue_detectMime,
      parseNat_round v tail hnd, setField]
  | fsizeLimit v =>
    simp only [renderField, fieldName, fieldValueBytes, List.append_assoc,
      List.cons_append]
    simp [parseFieldAndAssign, parseJsonString_round, parseFieldValue_fsizeLimit,
      parseInt_round v tail hnd, setField]
  | fsizeMin v =>
    simp only [renderField, fieldName, fieldValueBytes, List.append_assoc,
      List.cons_append]
    simp [parseFieldAndAssign, parseJsonString_round, parseFieldValue_fsizeMin,
      parseInt_round v tail hnd, setField]
  | mimeLimit v =>
    simp only [renderField, fieldName, fieldValueBytes, List.append_assoc,
      List.cons_append]
    simp [parseFieldAndAssign, parseJsonString_round, parseFieldValue_mimeLimit, setField]
  | saveKey v =>
    simp only [renderField, fieldName, fieldValueBytes, List.append_assoc,
      List.cons_append]
    simp [parseFieldAndAssign, parseJsonString_round, parseFieldValue_saveKey, setField]
  | callbackFetchKey v =>
    simp only [renderField, fieldName, fieldValueBytes, List.append_assoc,
      List.cons_append]
    simp [parseFieldAndAssign, parseJsonString_round, parseFieldValue_callbackFetchKey,
      parseNat_round v tail hnd, setField]
  | callbackURL v =>
    simp only [renderField, fieldName, fieldValueBytes, List.append_assoc,
      List.cons_append]
    simp [parseFieldAndAssign, parseJsonString_round, parseFieldValue_callbackURL, setField]
  | callbackHost v =>
    simp only [renderField, fieldName, fieldValueBytes, List.append_assoc,
      List.cons_append]
    simp [parseFieldAndAssign, parseJsonString_round, parseFieldValue_callbackHost, setField]
  | callbackBody v =>
    simp only [renderField, fieldName, fieldValueBytes, List.append_assoc,
      List.cons_append]
    simp [parseFieldAndAssign, parseJsonString_round, parseFieldValue_callbackBody, setField]
  | callbackBodyType v =>
    simp only [renderField, fieldName, fieldValueBytes, List.append_assoc,
      List.cons_append]
    simp [parseFieldAndAssign, parseJsonString_round, parseFieldValue_callbackBodyType, setField]
  | returnURL v =>
    simp only [renderField, fieldName, fieldValueBytes, List.append_assoc,
      List.cons_append]
    simp [parseFieldAndAssign, parseJsonString_round, parseFieldValue_returnURL, setField]
  | returnBody v =>
    simp only [renderField, fieldName, fieldValueBytes, List.append_assoc,
      List.cons_append]
    simp [parseFieldAndAssign, parseJsonString_round, parseFieldValue_returnBody, setField]
  | persistentOps v =>
    simp only [renderField, fieldName, fieldValueBytes, List.append_assoc,
      List.cons_append]
    simp [parseFieldAndAssign, parseJsonString_round, parseFieldValue_persistentOps, setField]
  | persistentNotifyURL v =>
    simp only [renderField, fieldName, fieldValueBytes, List.append_assoc,
      List.cons_append]
    simp [parseFieldAndAssign, parseJsonString_round, parseFieldValue_persistentNotifyURL, setField]
  | persistentPipeline v =>
    simp only [renderField, fieldName, fieldValueBytes, List.append_assoc,
      List.cons_append]
    simp [parseFieldAndAssign, parseJsonString_round, parseFieldValue_persistentPipeline, setField]
  | endUser v =>
    simp only [renderField, fieldName, fieldValueBytes, List.append_assoc,
      List.cons_append]
    simp [parseFieldAndAssign, parseJsonString_round, parseFieldValue_endUser, setField]
  | deleteAfterDays v =>
    simp only [renderField, fieldName, fieldValueBytes, List.append_assoc,
      List.cons_append]
    simp [parseFieldAndAssign, parseJsonString_round, parseFieldValue_deleteAfterDays,
      parseInt_round v tail hnd, setField]
  | fileType v =>
    simp only [renderField, fieldName, fieldValueBytes, List.append_assoc,
      List.cons_append]
    simp [parseFieldAndAssign, parseJsonString_round, parseFieldValue_fileType,
      parseInt_round v tail hnd, setField]

theorem renderRest_cons (f : PField) (fs : List PField) :
    renderRest (f :: fs) = 44 :: (renderField f ++ renderRest fs) := by
  simp [renderRest]

theorem renderRest_length (fs : List PField) : fs.length ≤ (renderRest fs).length := by
  induction fs with
  | nil => simp [renderRest]
  | cons f fs ih =>
    rw [renderRest_cons]
    simp only [List.length_cons, List.length_append]
    omega

theorem renderRest_tail_stops (fs : List PField) (tailEnd : List Nat) :
    ∀ acc, parseDigits (renderRest fs ++ 125 :: tailEnd) acc =
      (acc, renderRest fs ++ 125 :: tailEnd) := by
  cases fs with
  | nil => simpa [renderRest] using parseDigits_stop tailEnd (by omega)
  | cons g gs =>
    rw [renderRest_cons]
    simpa [List.cons_append] using
      parseDigits_stop (renderField g ++ renderRest gs ++ 125 :: tailEnd) (by omega)

theorem parseFieldsLoop_render (fs : List PField) :
    ∀ (fuel : Nat) (p : PutPolicy) (tailEnd : List Nat), fs.length < fuel →
      parseFieldsLoop fuel p (renderRest fs ++ 125 :: tailEnd) =
        some (fs.foldl setField p, tailEnd) := by
  induction fs with
  | nil =>
    intro fuel p tailEnd hfuel
    cases fuel with
    | zero => omega
    | succ fuel => simp [renderRest, parseFieldsLoop]
  | cons f fs ih =>
    intro fuel p tailEnd hfuel
    cases fuel with
    | zero => omega
    | succ fuel =>
      rw [renderRest_cons, List.cons_append, List.append_assoc]
      simp only [parseFieldsLoop]
      rw [if_neg (by omega), if_pos trivial]
      rw [parseFieldAndAssign_render f p _ (renderRest_tail_stops fs tailEnd)]
      have hlt : fs.length < fuel := by
        simp only [List.length_cons] at hfuel
        omega
      simp [ih fuel (setField p f) tailEnd hlt]

theorem renderField_head (f : PField) : ∃ bs, renderField f = 34 :: bs :=
  ⟨(List.map jsonEscapeChar (fieldName f)).flatten ++ 34 :: 58 :: fieldValueBytes f, by
    simp [renderField, jsonStringBytes]⟩

theorem unmarshal_marshal (p : PutPolicy) :
    unmarshalPutPolicy (marshalPutPolicy p) =
      some ((presentFields p).foldl setField zeroPolicy) := by
  have hm : marshalPutPolicy p = 123 :: (renderField (.scope p.scope) ++
      (renderRest (.deadline p.deadline :: optFields p) ++ [125])) := by
    simp [marshalPutPolicy, presentFields]
  obtain ⟨bs, hbs⟩ := renderField_head (PField.scope p.scope)
  have hfuel : (PField.deadline p.deadline :: optFields p).length <
      (renderRest (PField.deadline p.deadline :: optFields p) ++ [125]).length + 1 := by
    have := renderRest_length (PField.deadline p.deadline :: optFields p)
    simp only [List.length_append, List.length_cons] at this ⊢
    omega
  rw [hm, hbs, List.cons_append]
  simp only [unmarshalPutPolicy]
  rw [if_pos trivial, if_neg (by omega : ¬(34 = 125))]
  rw [← List.cons_append, ← hbs,
    parseFieldAndAssign_render (PField.scope p.scope) zeroPolicy _
      (renderRest_tail_stops (PField.deadline p.deadline :: optFields p) [])]
  rw [show (renderRest (PField.deadline p.deadline :: optFields p) ++ [125] : List Nat) =
    renderRest (PField.deadline p.deadline :: optFields p) ++ 125 :: [] from rfl] at hfuel ⊢
  simp only []
  rw [parseFieldsLoop_render (PField.deadline p.deadline :: optFields p) _
    (setField zeroPolicy (PField.scope p.scope)) [] (by simpa using hfuel)]
  simp [presentFields]

theorem foldl_skip (a : PutPolicy) (c : Prop) [inst : Decidable c] (f : PField)
    (rest : List PField) :
    List.foldl setField a ((if c then [] else [f]) ++ rest) =
      List.foldl setField (if c then a else setField a f) rest := by
  by_cases h : c <;> simp [h]

theorem foldl_skip_nil (a : PutPolicy) (c : Prop) [inst : Decidable c] (f : PField) :
    List.foldl setField a (if c then [] else [f]) =
      if c then a else setField a f := by
  by_cases h : c <;> simp [h]

theorem foldl_presentFields (p : PutPolicy) :
    (presentFields p).foldl setField zeroPolicy = p := by
  rcases p with ⟨sc, dl, ips, ino, fsk, dm, fl, fm, ml, sk, cfk, cu, ch, cb, cbt, ru, rb, po, pn, pp, eu, dad, ft⟩
  simp only [presentFields, List.foldl_cons, optFields]
  rw [show setField (setField zeroPolicy (PField.scope sc)) (PField.deadline dl) =
    (⟨sc, dl, 0, 0, false, 0, 0, 0, [], [], 0, [], [], [], [], [], [], [], [], [], [], 0, 0⟩ : PutPolicy) from rfl]
  rw [foldl_skip]
  rw [show (if ips = 0 then (⟨sc, dl, 0, 0, false, 0, 0, 0, [], [], 0, [], [], [], [], [], [], [], [], [], [], 0, 0⟩ : PutPolicy)
      else setField (⟨sc, dl, 0, 0, false, 0, 0, 0, [], [], 0, [], [], [], [], [], [], [], [], [], [], 0, 0⟩ : PutPolicy) (PField.isPrefixalScope ips)) =
    (⟨sc, dl, ips, 0, false, 0, 0, 0, [], [], 0, [], [], [], [], [], [], [], [], [], [], 0, 0⟩ : PutPolicy) from by
    by_cases h : ips = 0 <;> simp [h, setField]]
  rw [foldl_skip]
  rw [show (if ino = 0 then (⟨sc, dl, ips, 0, false, 0, 0, 0, [], [], 0, [], [], [], [], [], [], [], [], [], [], 0, 0⟩ : PutPolicy)
      else setField (⟨sc, dl, ips, 0, false, 0, 0, 0, [], [], 0, [], [], [], [], [], [], [], [], [], [], 0, 0⟩ : PutPolicy) (PField.insertOnly ino)) =
    (⟨sc, dl, ips, ino, false, 0, 0, 0, [], [], 0, [], [], [], [], [], [], [], [], [], [], 0, 0⟩ : PutPolicy) from by
    by_cases h : ino = 0 <;> simp [h, setField]]
  rw [foldl_skip]
  rw [show (if fsk = false then (⟨sc, dl, ips, ino, false, 0, 0, 0, [], [], 0, [], [], [], [], [], [], [], [], [], [], 0, 0⟩ : PutPolicy)
      else setField (⟨sc, dl, ips, ino, false, 0, 0, 0, [], [], 0, [], [], [], [], [], [], [], [], [], [], 0, 0⟩ : PutPolicy) (PField.forceSaveKey fsk)) =
    (⟨sc, dl, ips, ino, fsk, 0, 0, 0, [], [], 0, [], [], [], [], [], [], [], [], [], [], 0, 0⟩ : PutPolicy) from by
    by_cases h : fsk = false <;> simp [h, setField]]
  rw [foldl_skip]
  rw [show (if dm = 0 then (⟨sc, dl, ips, ino, fsk, 0, 0, 0, [], [], 0, [], [], [], [], [], [], [], [], [], [], 0, 0⟩ : PutPolicy)
      else setField (⟨sc, dl, ips, ino, fsk, 0, 0, 0, [], [], 0, [], [], [], [], [], [], [], [], [], [], 0, 0⟩ : PutPolicy) (PField.detectMime dm)) =
    (⟨sc, dl, ips, ino, fsk, dm, 0, 0, [], [], 0, [], [], [], [], [], [], [], [], [], [], 0, 0⟩ : PutPolicy) from by
    by_cases h : dm = 0 <;> simp [h, setField]]
  rw [foldl_skip]
  rw [show (if fl = 0 then (⟨sc, dl, ips, ino, fsk, dm, 0, 0, [], [], 0, [], [], [], [], [], [], [], [], [], [], 0, 0⟩ : PutPolicy)
      else setField (⟨sc, dl, ips, ino, fsk, dm, 0, 0, [], [], 0, [], [], [], [], [], [], [], [], [], [], 0, 0⟩ : PutPolicy) (PField.fsizeLimit fl)) =
    (⟨sc, dl, ips, ino, fsk, dm, fl, 0, [], [], 0, [], [], [], [], [], [], [], [], [], [], 0, 0⟩ : PutPolicy) from by
    by_cases h : fl = 0 <;> simp [h, setField]]
  rw [foldl_skip]
  rw [show (if fm = 0 then (⟨sc, dl, ips, ino, fsk, dm, fl, 0, [], [], 0, [], [], [], [], [], [], [], [], [], [], 0, 0⟩ : PutPolicy)
      else setField (⟨sc, dl, ips, ino, fsk, dm, fl, 0, [], [], 0, [], [], [], [], [], [], [], [], [], [], 0, 0⟩ : PutPolicy) (PField.fsizeMin fm)) =
    (⟨sc, dl, ips, ino, fsk, dm, fl, fm, [], [], 0, [], [], [], [], [], [], [], [], [], [], 0, 0⟩ : PutPolicy) from by
    by_cases h : fm = 0 <;> simp [h, setField]]
  rw [foldl_skip]
  rw [show (if ml = [] then (⟨sc, dl, ips, ino, fsk, dm, fl, fm, [], [], 0, [], [], [], [], [], [], [], [], [], [], 0, 0⟩ : PutPolicy)
      else setField (⟨sc, dl, ips, ino, fsk, dm, fl, fm, [], [], 0, [], [], [], [], [], [], [], [], [], [], 0, 0⟩ : PutPolicy) (PField.mimeLimit ml)) =
    (⟨sc, dl, ips, ino, fsk, dm, fl, fm, ml, [], 0, [], [], [], [], [], [], [], [], [], [], 0, 0⟩ : PutPolicy) from by
    by_cases h : ml = [] <;> simp [h, setField]]
  rw [foldl_skip]
  rw [show (if sk = [] then (⟨sc, dl, ips, ino, fsk, dm, fl, fm, ml, [], 0, [], [], [], [], [], [], [], [], [], [], 0, 0⟩ : PutPolicy)
      else setField (⟨sc, dl, ips, ino, fsk, dm, fl, fm, ml, [], 0, [], [], [], [], [], [], [], [], [], [], 0, 0⟩ : PutPolicy) (PField.saveKey sk)) =
    (⟨sc, dl, ips, ino, fsk, dm, fl, fm, ml, sk, 0, [], [], [], [], [], [], [], [], [], [], 0, 0⟩ : PutPolicy) from by
    by_cases h : sk = [] <;> simp [h, setField]]
  rw [foldl_skip]
  rw [show (if cfk = 0 then (⟨sc, dl, ips, ino, fsk, dm, fl, fm, ml, sk, 0, [], [], [], [], [], [], [], [], [], [], 0, 0⟩ : PutPolicy)
      else setField (⟨sc, dl, ips, ino, fsk, dm, fl, fm, ml, sk, 0, [], [], [], [], [], [], [], [], [], [], 0, 0⟩ : PutPolicy) (PField.callbackFetchKey cfk)) =
    (⟨sc, dl, ips, ino, fsk, dm, fl, fm, ml, sk, cfk, [], [], [], [], [], [], [], [], [], [], 0, 0⟩ : PutPolicy) from by
    by_cases h : cfk = 0 <;> simp [h, setField]]
  rw [foldl_skip]
  rw [show (if cu = [] then (⟨sc, dl, ips, ino, fsk, dm, fl, fm, ml, sk, cfk, [], [], [], [], [], [], [], [], [], [], 0, 0⟩ : PutPolicy)
      else setField (⟨sc, dl, ips, ino, fsk, dm, fl, fm, ml, sk, cfk, [], [], [], [], [], [], [], [], [], [], 0, 0⟩ : PutPolicy) (PField.callbackURL cu)) =
    (⟨sc, dl, ips, ino, fsk, dm, fl, fm, ml, sk, cfk, cu, [], [], [], [], [], [], [], [], [], 0, 0⟩ : PutPolicy) from by
    by_cases h : cu = [] <;> simp [h, setField]]
  rw [foldl_skip]
  rw [show (if ch = [] then (⟨sc, dl, ips, ino, fsk, dm, fl, fm, ml, sk, cfk, cu, [], [], [], [], [], [], [], [], [], 0, 0⟩ : PutPolicy)
      else setField (⟨sc, dl, ips, ino, fsk, dm, fl, fm, ml, sk, cfk, cu, [], [], [], [], [], [], [], [], [], 0, 0⟩ : PutPolicy) (PField.callbackHost ch)) =
    (⟨sc, dl, ips, ino, fsk, dm, fl, fm, ml, sk, cfk, cu, ch, [], [], [], [], [], [], [], [], 0, 0⟩ : PutPolicy) from by
    by_cases h : ch = [] <;> simp [h, setField]]
  rw [foldl_skip]
  rw [show (if cb = [] then (⟨sc, dl, ips, ino, fsk, dm, fl, fm, ml, sk, cfk, cu, ch, [], [], [], [], [], [], [], [], 0, 0⟩ : PutPolicy)
      else setField (⟨sc, dl, ips, ino, fsk, dm, fl, fm, ml, sk, cfk, cu, ch, [], [], [], [], [], [], [], [], 0, 0⟩ : PutPolicy) (PField.callbackBody cb)) =
    (⟨sc, dl, ips, ino, fsk, dm, fl, fm, ml, sk, cfk, cu, ch, cb, [], [], [], [], [], [], [], 0, 0⟩ : PutPolicy) from by
    by_cases h : cb = [] <;> simp [h, setField]]
  rw [foldl_skip]
  rw [show (if cbt = [] then (⟨sc, dl, ips, ino, fsk, dm, fl, fm, ml, sk, cfk, cu, ch, cb, [], [], [], [], [], [], [], 0, 0⟩ : PutPolicy)
      else setField (⟨sc, dl, ips, ino, fsk, dm, fl, fm, ml, sk, cfk, cu, ch, cb, [], [], [], [], [], [], [], 0, 0⟩ : PutPolicy) (PField.callbackBodyType cbt)) =
    (⟨sc, dl, ips, ino, fsk, dm, fl, fm, ml, sk, cfk, cu, ch, cb, cbt, [], [], [], [], [], [], 0, 0⟩ : PutPolicy) from by
    by_cases h : cbt = [] <;> simp [h, setField]]
  rw [foldl_skip]
  rw [show (if ru = [] then (⟨sc, dl, ips, ino, fsk, dm, fl, fm, ml, sk, cfk, cu, ch, cb, cbt, [], [], [], [], [], [], 0, 0⟩ : PutPolicy)
      else setField (⟨sc, dl, ips, ino, fsk, dm, fl, fm, ml, sk, cfk, cu, ch, cb, cbt, [], [], [], [], [], [], 0, 0⟩ : PutPolicy) (PField.returnURL ru)) =
    (⟨sc, dl, ips, ino, fsk, dm, fl, fm, ml, sk, cfk, cu, ch, cb, cbt, ru, [], [], [], [], [], 0, 0⟩ : PutPolicy) from by
    by_cases h : ru = [] <;> simp [h, setField]]
  rw [foldl_skip]
  rw [show (if rb = [] then (⟨sc, dl, ips, ino, fsk, dm, fl, fm, ml, sk, cfk, cu, ch, cb, cbt, ru, [], [], [], [], [], 0, 0⟩ : PutPolicy)
      else setField (⟨sc, dl, ips, ino, fsk, dm, fl, fm, ml, sk, cfk, cu, ch, cb, cbt, ru, [], [], [], [], [], 0, 0⟩ : PutPolicy) (PField.returnBody rb)) =
    (⟨sc, dl, ips, ino, fsk, dm, fl, fm, ml, sk, cfk, cu, ch, cb, cbt, ru, rb, [], [], [], [], 0, 0⟩ : PutPolicy) from by
    by_cases h : rb = [] <;> simp [h, setField]]
  rw [foldl_skip]
  rw [show (if po = [] then (⟨sc, dl, ips, ino, fsk, dm, fl, fm, ml, sk, cfk, cu, ch, cb, cbt, ru, rb, [], [], [], [], 0, 0⟩ : PutPolicy)
      else setField (⟨sc, dl, ips, ino, fsk, dm, fl, fm, ml, sk, cfk, cu, ch, cb, cbt, ru, rb, [], [], [], [], 0, 0⟩ : PutPolicy) (PField.persistentOps po)) =
    (⟨sc, dl, ips, ino, fsk, dm, fl, fm, ml, sk, cfk, cu, ch, cb, cbt, ru, rb, po, [], [], [], 0, 0⟩ : PutPolicy) from by
    by_cases h : po = [] <;> simp [h, setField]]
  rw [foldl_skip]
  rw [show (if pn = [] then (⟨sc, dl, ips, ino, fsk, dm, fl, fm, ml, sk, cfk, cu, ch, cb, cbt, ru, rb, po, [], [], [], 0, 0⟩ : PutPolicy)
      else setField (⟨sc, dl, ips, ino, fsk, dm, fl, fm, ml, sk, cfk, cu, ch, cb, cbt, ru, rb, po, [], [], [], 0, 0⟩ : PutPolicy) (PField.persistentNotifyURL pn)) =
    (⟨sc, dl, ips, ino, fsk, dm, fl, fm, ml, sk, cfk, cu, ch, cb, cbt, ru, rb, po, pn, [], [], 0, 0⟩ : PutPolicy) from by
    by_cases h : pn = [] <;> simp [h, setField]]
  rw [foldl_skip]
  rw [show (if pp = [] then (⟨sc, dl, ips, ino, fsk, dm, fl, fm, ml, sk, cfk, cu, ch, cb, cbt, ru, rb, po, pn, [], [], 0, 0⟩ : PutPolicy)
      else setField (⟨sc, dl, ips, ino, fsk, dm, fl, fm, ml, sk, cfk, cu, ch, cb, cbt, ru, rb, po, pn, [], [], 0, 0⟩ : PutPolicy) (PField.persistentPipeline pp)) =
    (⟨sc, dl, ips, ino, fsk, dm, fl, fm, ml, sk, cfk, cu, ch, cb, cbt, ru, rb, po, pn, pp, [], 0, 0⟩ : PutPolicy) from by
    by_cases h : pp = [] <;> simp [h, setField]]
  rw [foldl_skip]
  rw [show (if eu = [] then (⟨sc, dl, ips, ino, fsk, dm, fl, fm, ml, sk, cfk, cu, ch, cb, cbt, ru, rb, po, pn, pp, [], 0, 0⟩ : PutPolicy)
      else setField (⟨sc, dl, ips, ino, fsk, dm, fl, fm, ml, sk, cfk, cu, ch, cb, cbt, ru, rb, po, pn, pp, [], 0, 0⟩ : PutPolicy) (PField.endUser eu)) =
    (⟨sc, dl, ips, ino, fsk, dm, fl, fm, ml, sk, cfk, cu, ch, cb, cbt, ru, rb, po, pn, pp, eu, 0, 0⟩ : PutPolicy) from by
    by_cases h : eu = [] <;> simp [h, setField]]
  rw [foldl_skip]
  rw [show (if dad = 0 then (⟨sc, dl, ips, ino, fsk, dm, fl, fm, ml, sk, cfk, cu, ch, cb, cbt, ru, rb, po, pn, pp, eu, 0, 0⟩ : PutPolicy)
      else setField (⟨sc, dl, ips, ino, fsk, dm, fl, fm, ml, sk, cfk, cu, ch, cb, cbt, ru, rb, po, pn, pp, eu, 0, 0⟩ : PutPolicy) (PField.deleteAfterDays dad)) =
    (⟨sc, dl, ips, ino, fsk, dm, fl, fm, ml, sk, cfk, cu, ch, cb, cbt, ru, rb, po, pn, pp, eu, dad, 0⟩ : PutPolicy) from by
    by_cases h : dad = 0 <;> simp [h, setField]]
  rw [foldl_skip_nil]
  rw [show (if ft = 0 then (⟨sc, dl, ips, ino, fsk, dm, fl, fm, ml, sk, cfk, cu, ch, cb, cbt, ru, rb, po, pn, pp, eu, dad, 0⟩ : PutPolicy)
      else setField (⟨sc, dl, ips, ino, fsk, dm, fl, fm, ml, sk, cfk, cu, ch, cb, cbt, ru, rb, po, pn, pp, eu, dad, 0⟩ : PutPolicy) (PField.fileType ft)) =
    (⟨sc, dl, ips, ino, fsk, dm, fl, fm, ml, sk, cfk, cu, ch, cb, cbt, ru, rb, po, pn, pp, eu, dad, ft⟩ : PutPolicy) from by
    by_cases h : ft = 0 <;> simp [h, setField]]

theorem b64Val_b64Char : ∀ k, k < 64 → b64Val (b64Char k) = some k := by decide

theorem b64Char_ne_eq : ∀ k, k < 64 → b64Char k ≠ '=' := by decide

theorem b64Char_ne_colon : ∀ k, k < 64 → b64Char k ≠ ':' := by decide

theorem decodeB64_encodeB64_aux : ∀ (n : Nat) (l : List Nat), l.length ≤ n →
    (∀ b ∈ l, b < 256) → decodeB64 (encodeB64 l) = some l := by
  intro n
  induction n with
  | zero =>
    intro l hlen _
    rcases l with _ | ⟨x, xs⟩
    · rfl
    · simp at hlen
  | succ n ih =>
    intro l hlen hall
    rcases l with _ | ⟨x, _ | ⟨y, _ | ⟨z, rest⟩⟩⟩
    · rfl
    · have hx : x < 256 := hall x (by simp)
      simp only [encodeB64, decodeB64]
      rw [b64Val_b64Char (x / 4) (by omega), b64Val_b64Char (x % 4 * 16) (by omega)]
      have h1 : x / 4 * 4 + x % 4 * 16 / 16 = x := by omega
      simp only [Option.bind, and_self, if_true, h1]
    · have hx : x < 256 := hall x (by simp)
      have hy : y < 256 := hall y (by simp)
      simp only [encodeB64, decodeB64]
      rw [b64Val_b64Char (x / 4) (by omega),
        b64Val_b64Char (x % 4 * 16 + y / 16) (by omega),
        b64Val_b64Char (y % 16 * 4) (by omega)]
      simp only [Option.bind]
      rw [if_neg (b64Char_ne_eq (y % 16 * 4) (by omega))]
      have h1 : x / 4 * 4 + (x % 4 * 16 + y / 16) / 16 = x := by omega
      have h2 : (x % 4 * 16 + y / 16) % 16 * 16 + y % 16 * 4 / 4 = y := by omega
      simp only [if_true, h1, h2]
    · have hx : x < 256 := hall x (by simp)
      have hy : y < 256 := hall y (by simp)
      have hz : z < 256 := hall z (by simp)
      have hrest : ∀ b ∈ rest, b < 256 := fun b hb => hall b (by simp [hb])
      have hlen2 : rest.length ≤ n := by
        simp only [List.length_cons] at hlen
        omega
      simp only [encodeB64, decodeB64]
      rw [b64Val_b64Char (x / 4) (by omega),
        b64Val_b64Char (x % 4 * 16 + y / 16) (by omega),
        b64Val_b64Char (y % 16 * 4 + z / 64) (by omega),
        b64Val_b64Char (z % 64) (by omega)]
      simp only [Option.bind]
      rw [if_neg (b64Char_ne_eq (y % 16 * 4 + z / 64) (by omega))]
      rw [if_neg (b64Char_ne_eq (z % 64) (by omega))]
      rw [ih rest hlen2 hrest]
      have h1 : x / 4 * 4 + (x % 4 * 16 + y / 16) / 16 = x := by omega
      have h2 : (x % 4 * 16 + y / 16) % 16 * 16 + (y % 16 * 4 + z / 64) / 4 = y := by omega
      have h3 : (y % 16 * 4 + z / 64) % 4 * 64 + z % 64 = z := by omega
      simp only [Option.map, h1, h2, h3]

theorem decodeB64_encodeB64 (l : List Nat) (hl : ∀ b ∈ l, b < 256) :
    decodeB64 (encodeB64 l) = some l :=
  decodeB64_encodeB64_aux l.length l le_rfl hl

theorem encodeB64_no_colon_aux : ∀ (n : Nat) (l : List Nat), l.length ≤ n →
    (∀ b ∈ l, b < 256) → ':' ∉ encodeB64 l := by
  intro n
  induction n with
  | zero =>
    intro l hlen _
    rcases l with _ | ⟨x, xs⟩
    · simp [encodeB64]
    · simp at hlen
  | succ n ih =>
    intro l hlen hall
    rcases l with _ | ⟨x, _ | ⟨y, _ | ⟨z, rest⟩⟩⟩
    · simp [encodeB64]
    · have hx : x < 256 := hall x (by simp)
      intro hmem
      simp only [encodeB64, List.mem_cons, List.not_mem_nil, or_false] at hmem
      rcases hmem with h | h | h | h
      · exact b64Char_ne_colon (x / 4) (by omega) h.symm
      · exact b64Char_ne_colon (x % 4 * 16) (by omega) h.symm
      · exact absurd h (by decide)
      · exact absurd h (by decide)
    · have hx : x < 256 := hall x (by simp)
      have hy : y < 256 := hall y (by simp)
      intro hmem
      simp only [encodeB64, List.mem_cons, List.not_mem_nil, or_false] at hmem
      rcases hmem with h | h | h | h
      · exact b64Char_ne_colon (x / 4) (by omega) h.symm
      · exact b64Char_ne_colon (x % 4 * 16 + y / 16) (by omega) h.symm
      · exact b64Char_ne_colon (y % 16 * 4) (by omega) h.symm
      · exact absurd h (by decide)
    · have hx : x < 256 := hall x (by simp)
      have hy : y < 256 := hall y (by simp)
      have hz : z < 256 := hall z (by simp)
      intro hmem
      simp only [encodeB64, List.mem_cons] at hmem
      rcases hmem with h | h | h | h | h
      · exact b64Char_ne_colon (x / 4) (by omega) h.symm
      · exact b64Char_ne_colon (x % 4 * 16 + y / 16) (by omega) h.symm
      · exact b64Char_ne_colon (y % 16 * 4 + z / 64) (by omega) h.symm
      · exact b64Char_ne_colon (z % 64) (by omega) h.symm
      · exact ih rest (by simp only [List.length_cons] at hlen; omega)
          (fun b hb => hall b (by simp [hb])) h

theorem encodeB64_no_colon (l : List Nat) (hl : ∀ b ∈ l, b < 256) :
    ':' ∉ encodeB64 l :=
  encodeB64_no_colon_aux l.length l le_rfl hl

theorem breakColon_append (a rest : List Char) (ha : ':' ∉ a) :
    breakColon (a ++ ':' :: rest) = some (a, rest) := by
  induction a with
  | nil => simp [breakColon]
  | cons c cs ih =>
    have hc : ¬(c = ':') := fun h => ha (by simp [h])
    have hcs : ':' ∉ cs := fun h => ha (List.mem_cons_of_mem _ h)
    simp [breakColon, hc, ih hcs]

theorem splitN3_token (ak sig rest : List Char) (hak : ':' ∉ ak) (hsig : ':' ∉ sig) :
    splitN3 (ak ++ ':' :: (sig ++ ':' :: rest)) = [ak, sig, rest] := by
  simp [splitN3, breakColon_append _ _ hak, breakColon_append _ _ hsig]

theorem utf8EncodeChar_lt (c : Char) : ∀ b ∈ utf8EncodeChar c, b < 256 := by
  intro b hb
  have h := charToNat_lt c
  simp only [utf8EncodeChar] at hb
  split at hb
  · simp only [List.mem_singleton] at hb
    omega
  · split at hb
    · simp only [List.mem_cons, List.not_mem_nil, or_false] at hb
      rcases hb with rfl | rfl <;> omega
    · split at hb
      · simp only [List.mem_cons, List.not_mem_nil, or_false] at hb
        rcases hb with rfl | rfl | rfl <;> omega
      · simp only [List.mem_cons, List.not_mem_nil, or_false] at hb
        rcases hb with rfl | rfl | rfl | rfl <;> omega

theorem hexDigit_lt : ∀ k, k < 16 → hexDigit k < 256 := by decide

theorem hex4_lt (n : Nat) : ∀ b ∈ hex4 n, b < 256 := by
  intro b hb
  simp only [hex4, List.mem_cons, List.not_mem_nil, or_false] at hb
  rcases hb with rfl | rfl | rfl | rfl <;> exact hexDigit_lt _ (by omega)

theorem jsonEscapeChar_lt (c : Char) : ∀ b ∈ jsonEscapeChar c, b < 256 := by
  intro b hb
  simp only [jsonEscapeChar] at hb
  repeat' split at hb
  all_goals first
    | exact utf8EncodeChar_lt c b hb
    | (simp only [List.mem_cons, List.not_mem_nil, or_false] at hb
       rcases hb with rfl | rfl <;> omega)
    | (simp only [List.mem_cons] at hb
       rcases hb with rfl | rfl | hb
       · omega
       · omega
       · exact hex4_lt _ b hb)

theorem jsonStringBytes_lt (s : List Char) : ∀ b ∈ jsonStringBytes s, b < 256 := by
  intro b hb
  simp only [jsonStringBytes, List.mem_cons, List.mem_append, List.mem_flatten,
    List.mem_map, List.mem_singleton] at hb
  rcases hb with (rfl | ⟨l, ⟨c, hc, rfl⟩, hbl⟩) | rfl | h
  · omega
  · exact jsonEscapeChar_lt c b hbl
  · omega
  · exact absurd h (List.not_mem_nil b)

theorem natToBytes_lt (n : Nat) : ∀ b ∈ natToBytes n, b < 256 := by
  intro b hb
  simp only [natToBytes] at hb
  split at hb
  · simp only [List.mem_singleton] at hb
    omega
  · simp only [List.mem_map, List.mem_reverse] at hb
    obtain ⟨d, hd, rfl⟩ := hb
    have := Nat.digits_lt_base (by norm_num) hd
    omega

theorem intToBytes_lt (v : Int) : ∀ b ∈ intToBytes v, b < 256 := by
  intro b hb
  simp only [intToBytes] at hb
  split at hb
  · rcases List.mem_cons.mp hb with rfl | h
    · omega
    · exact natToBytes_lt _ b h
  · exact natToBytes_lt _ b hb

theorem fieldValueBytes_lt (f : PField) : ∀ b ∈ fieldValueBytes f, b < 256 := by
  cases f with
  | scope v => exact jsonStringBytes_lt v
  | deadline v => exact natToBytes_lt v
  | isPrefixalScope v => exact intToBytes_lt v
  | insertOnly v => exact natToBytes_lt v
  | forceSaveKey v => cases v <;> exact (by decide)
  | detectMime v => exact natToBytes_lt v
  | fsizeLimit v => exact intToBytes_lt v
  | fsizeMin v => exact intToBytes_lt v
  | mimeLimit v => exact jsonStringBytes_lt v
  | saveKey v => exact jsonStringBytes_lt v
  | callbackFetchKey v => exact natToBytes_lt v
  | callbackURL v => exact jsonStringBytes_lt v
  | callbackHost v => exact jsonStringBytes_lt v
  | callbackBody v => exact jsonStringBytes_lt v
  | callbackBodyType v => exact jsonStringBytes_lt v
  | returnURL v => exact jsonStringBytes_lt v
  | returnBody v => exact jsonStringBytes_lt v
  | persistentOps v => exact jsonStringBytes_lt v
  | persistentNotifyURL v => exact jsonStringBytes_lt v
  | persistentPipeline v => exact jsonStringBytes_lt v
  | endUser v => exact jsonStringBytes_lt v
  | deleteAfterDays v => exact intToBytes_lt v
  | fileType v => exact intToBytes_lt v

theorem renderField_lt (f : PField) : ∀ b ∈ renderField f, b < 256 := by
  intro b hb
  simp only [renderField, List.mem_append, List.mem_cons] at hb
  rcases hb with h | rfl | h
  · exact jsonStringBytes_lt _ b h
  · omega
  · exact fieldValueBytes_lt f b h

theorem renderRest_lt (fs : List PField) : ∀ b ∈ renderRest fs, b < 256 := by
  intro b hb
  simp only [renderRest, List.mem_flatten, List.mem_map] at hb
  obtain ⟨l, ⟨f, hf, rfl⟩, hbl⟩ := hb
  rcases List.mem_cons.mp hbl with rfl | h
  · omega
  · exact renderField_lt f b h

theorem marshal_lt (p : PutPolicy) : ∀ b ∈ marshalPutPolicy p, b < 256 := by
  intro b hb
  simp only [marshalPutPolicy, presentFields, List.mem_cons, List.mem_append,
    List.mem_singleton, List.not_mem_nil, or_false] at hb
  rcases hb with rfl | h | h | rfl
  · omega
  · exact renderField_lt _ b h
  · exact renderRest_lt _ b h
  · omega

theorem be32_lt (n : Nat) : ∀ b ∈ be32 n, b < 256 := by
  intro b hb
  simp only [be32, List.mem_cons, List.not_mem_nil, or_false] at hb
  rcases hb with rfl | rfl | rfl | rfl <;> omega

theorem sha1_lt (msg : List Nat) : ∀ b ∈ sha1 msg, b < 256 := by
  intro b hb
  simp only [sha1] at hb
  generalize (chunk64 (sha1Pad msg)).foldl sha1Block
    (1732584193, 4023233417, 2562383102, 271733878, 3285377520) = st at hb
  obtain ⟨x0, x1, x2, x3, x4⟩ := st
  simp only [List.mem_append] at hb
  rcases hb with ((((h | h) | h) | h) | h) <;> exact be32_lt _ b h

theorem hmacSha1_lt (key msg : List Nat) : ∀ b ∈ hmacSha1 key msg, b < 256 := by
  intro b hb
  simp only [hmacSha1] at hb
  exact sha1_lt _ b hb

theorem unmarshal_marshal_id (p : PutPolicy) :
    unmarshalPutPolicy (marshalPutPolicy p) = some p :=
  (unmarshal_marshal p).trans (by rw [foldl_presentFields])

/-- C8: for every upload policy, the generated upload token is exactly
`access_key ':' base64url(HMAC_SHA1(secret_key, base64url(policy_json)))
':' base64url(policy_json)` where `policy_json` is the JSON of the
policy after deadline defaulting; a policy with deadline `<= 0` (zero,
as the field is a `uint32`) is first given the deadline `now + 1h`
(truncated to `uint32`); and `DecodeUpToken` on the generated token
recovers the access key and that same defaulted policy struct.  The
access key must not contain `':'`, as the token format is
colon-delimited. -/
theorem uploadToken_roundtrip (now : Nat) (v : CredValue) (p : PutPolicy)
    (hak : ':' ∉ v.accessKey) :
    uploadToken now v p =
      v.accessKey ++ ':' ::
        (encodeB64 (hmacSha1 v.secretKey
            ((encodeB64 (marshalPutPolicy (defaultDeadline now p))).map Char.toNat)) ++
          ':' :: encodeB64 (marshalPutPolicy (defaultDeadline now p))) ∧
    (p.deadline = 0 → (defaultDeadline now p).deadline = (now + 3600) % 2 ^ 32) ∧
    decodeUpToken (uploadToken now v p) = some (v.accessKey, defaultDeadline now p) := by
  have htok : uploadToken now v p =
      v.accessKey ++ ':' ::
        (encodeB64 (hmacSha1 v.secretKey
            ((encodeB64 (marshalPutPolicy (defaultDeadline now p))).map Char.toNat)) ++
          ':' :: encodeB64 (marshalPutPolicy (defaultDeadline now p))) := by
    simp [uploadToken, signWithData, signData]
  refine ⟨htok, fun h0 => by simp [defaultDeadline, h0], ?_⟩
  have hmlt : ∀ b ∈ marshalPutPolicy (defaultDeadline now p), b < 256 :=
    marshal_lt (defaultDeadline now p)
  have hsig : ':' ∉ encodeB64 (hmacSha1 v.secretKey
      ((encodeB64 (marshalPutPolicy (defaultDeadline now p))).map Char.toNat)) :=
    encodeB64_no_colon _ (hmacSha1_lt _ _)
  rw [htok]
  simp only [decodeUpToken, splitN3_token _ _ _ hak hsig]
  simp only [decodeB64_encodeB64 _ hmlt, unmarshal_marshal_id]

/-- C8 witness: the round trip instantiated at a concrete credential
(access key `ak`, secret key bytes `[1, 2, 3]`) and the zero policy at
time 0, with the colon-freeness hypothesis discharged concretely. -/
theorem uploadToken_roundtrip_witness :
    (':' ∉ (['a', 'k'] : List Char)) ∧
    (uploadToken 0 ⟨['a', 'k'], [1, 2, 3]⟩ zeroPolicy =
      ['a', 'k'] ++ ':' ::
        (encodeB64 (hmacSha1 [1, 2, 3]
            ((encodeB64 (marshalPutPolicy (defaultDeadline 0 zeroPolicy))).map
              Char.toNat)) ++
          ':' :: encodeB64 (marshalPutPolicy (defaultDeadline 0 zeroPolicy))) ∧
      (zeroPolicy.deadline = 0 →
        (defaultDeadline 0 zeroPolicy).deadline = (0 + 3600) % 2 ^ 32) ∧
      decodeUpToken (uploadToken 0 ⟨['a', 'k'], [1, 2, 3]⟩ zeroPolicy) =
        some (['a', 'k'], defaultDeadline 0 zeroPolicy)) :=
  ⟨by decide, uploadToken_roundtrip 0 ⟨['a', 'k'], [1, 2, 3]⟩ zeroPolicy (by decide)⟩

/-- C5 witness: a fresh upload of one full part plus one byte. -/
theorem completeRequest_parts_sorted_nodup_witness :
    (∀ p ∈ ([] : List CompletedPart), p.index ≤ 0) ∧
    (sortParts (uploadParts (DefaultUploadPartSize * 1 + 1) (fun _ => [])
        ⟨0, 0, []⟩).parts).Pairwise (fun a b => a.index < b.index) :=
  ⟨by simp, completeRequest_parts_sorted_nodup (DefaultUploadPartSize * 1 + 1)
    (fun _ => []) ⟨0, 0, []⟩ (by simp) (by simp)⟩

end QiniuSDK
